import Mathlib

/-!
Verification of the test-output classification engine of this repository
(`verify_testing.py` and `log_parser/parsers/*.py`).

The Python strategies are pure text-scanning functions `log → dict[str, str]`
whose values are drawn from the closed vocabulary {PASSED, FAILED, SKIPPED}.
We embed each strategy as a total Lean function over `List Char` / `String`,
mirroring the Python code statement by statement; Python regexes are embedded
as hand-rolled scanners that recognise the same language (each scanner carries
a comment quoting the regex it implements).  Python `dict` is embedded as an
association list with insertion-order semantics (`dinsert` overwrites an
existing key in place, otherwise appends), which is exactly CPython dict
behaviour.  Character classes `\s`, `\d` and `\w` are modelled over their
ASCII meaning (the logs the engine consumes are ASCII apart from the status
glyphs, which are matched literally).
-/

set_option maxRecDepth 4096

namespace VerifyTesting

/-- TestStatus mirrors the `TestStatus` enum duplicated at the top of every
parser module: a closed three-value vocabulary. -/
inductive TestStatus where
  | PASSED
  | FAILED
  | SKIPPED
deriving DecidableEq, Repr

/-- ClassMap embeds a Python `dict[str, str]` whose values are statuses: an
association list in insertion order with unique keys. -/
abbrev ClassMap := List (String × TestStatus)

/-- dinsert embeds the Python statement `m[k] = v`: if the key is present its
value is replaced in place (insertion order kept), otherwise the pair is
appended at the end. -/
def dinsert (m : ClassMap) (k : String) (v : TestStatus) : ClassMap :=
  if m.any (fun p => p.1 = k) then
    m.map (fun p => if p.1 = k then (k, v) else p)
  else m ++ [(k, v)]

/-- dlookup embeds Python `m.get(k)`. -/
def dlookup (m : ClassMap) (k : String) : Option TestStatus :=
  match m with
  | [] => none
  | p :: rest => if p.1 = k then some p.2 else dlookup rest k

/-- dupdate embeds Python `m.update(r)`: every pair of `r` is assigned into
`m` in `r`'s insertion order. -/
def dupdate (m r : ClassMap) : ClassMap :=
  r.foldl (fun acc p => dinsert acc p.1 p.2) m

/-- dkeys lists the keys of a map in insertion order. -/
def dkeys (m : ClassMap) : List String := m.map Prod.fst

/-- countStatus embeds `sum(1 for status in result.values() if status == s)`
as used in `verify_testing.main`. -/
def countStatus (m : ClassMap) (st : TestStatus) : Nat :=
  (m.filter (fun p => decide (p.2 = st))).length

/-! ### Character classes and elementary text helpers -/

/-- isPySpace models the regex class `\s` and the default `str.strip` /
`str.isspace` character set (ASCII part). -/
def isPySpace (c : Char) : Bool :=
  c = ' ' || c = '\t' || c = '\n' || c = '\r' || c = '\x0b' || c = '\x0c'

/-- isWordChar models the regex class `\w` (ASCII part): letters, digits and
the underscore. -/
def isWordChar (c : Char) : Bool :=
  c.isAlphanum || c = '_'

/-- stripChars models Python `str.strip()` on a character list. -/
def stripChars (cs : List Char) : List Char :=
  ((cs.dropWhile isPySpace).reverse.dropWhile isPySpace).reverse

/-- pyStrip models Python `str.strip()`. -/
def pyStrip (s : String) : String := ⟨stripChars s.data⟩

/-- pyLowerChar models Python `str.lower()` on one character (ASCII part). -/
def pyLowerChar (c : Char) : Char := c.toLower

/-- pyLower models Python `str.lower()` (ASCII part). -/
def pyLower (s : String) : String := ⟨s.data.map pyLowerChar⟩

/-- splitLinesAux is the worker for `splitLines`. -/
def splitLinesAux : List Char → List Char → List (List Char)
  | [], acc => [acc.reverse]
  | c :: rest, acc =>
    if c = '\n' then acc.reverse :: splitLinesAux rest []
    else splitLinesAux rest (c :: acc)

/-- splitLines models Python `log.split("\n")` (note: `"".split("\n")` is
`[""]`, which this reproduces). -/
def splitLines (s : String) : List (List Char) := splitLinesAux s.data []

/-- listBeginsWith cs pat is true when `pat` is an initial segment of `cs`. -/
def listBeginsWith : List Char → List Char → Bool
  | _, [] => true
  | [], _ :: _ => false
  | c :: cs, d :: ds => c = d && listBeginsWith cs ds

/-- listContainsSub cs pat models Python `pat in cs` (substring test). -/
def listContainsSub : List Char → List Char → Bool
  | [], pat => pat.isEmpty
  | c :: rest, pat => listBeginsWith (c :: rest) pat || listContainsSub rest pat

/-- strContains s pat models Python `pat in s`. -/
def strContains (s pat : String) : Bool := listContainsSub s.data pat.data

/-- digitsToNat evaluates a run of decimal digit characters, as Python
`int(...)` does on the text captured by a `(\d+)` group. -/
def digitsToNat (ds : List Char) : Nat :=
  ds.foldl (fun a c => 10 * a + (c.toNat - 48)) 0

/-! ### The jest strategy (`log_parser/parsers/jest.py`) -/

/-- jestIsDurationSuffix recognises the anchored optional duration suffix
`\s\((\d+\s*m?s)\)$` of the jest checkmark regex. -/
def jestIsDurationSuffix (cs : List Char) : Bool :=
  match cs with
  | c :: '(' :: rest =>
    isPySpace c &&
    (let spanned := rest.span Char.isDigit
     !spanned.1.isEmpty &&
     (match spanned.2.dropWhile isPySpace with
      | 'm' :: 's' :: ')' :: [] => true
      | 's' :: ')' :: [] => true
      | _ => false))
  | _ => false

/-- jestCheckName extracts the lazy group `(.+?)` of
`^\s*(✓|✕|○)\s(.+?)(?:\s\((\d+\s*m?s)\))?$`: the shortest non-empty name
such that what remains is empty or a duration annotation. -/
def jestCheckName : List Char → List Char
  | [] => []
  | c :: tail =>
    if tail.isEmpty || jestIsDurationSuffix tail then [c]
    else c :: jestCheckName tail

/-- jestCheckmarkLine embeds one iteration of the first loop of
`parse_log_jest`: `re.match(r"^\s*(✓|✕|○)\s(.+?)(?:\s\((\d+\s*m?s)\))?$",
line.strip())` together with the status dispatch on the glyph. -/
def jestCheckmarkLine (line : List Char) : Option (String × TestStatus) :=
  match stripChars line with
  | m :: c :: rest =>
    if (m = '✓' ∨ m = '✕' ∨ m = '○') ∧ isPySpace c ∧ rest ≠ [] then
      some (⟨jestCheckName rest⟩,
        if m = '✓' then .PASSED else if m = '✕' then .FAILED else .SKIPPED)
    else none
  | _ => none

/-- jestCheckmarkScan runs the checkmark pattern over every line and
accumulates the matches in the status map. -/
def jestCheckmarkScan (lines : List (List Char)) : ClassMap :=
  lines.foldl
    (fun m l =>
      match jestCheckmarkLine l with
      | some (name, st) => dinsert m name st
      | none => m)
    []

/-- jestPFDurationSuffix recognises the anchored optional duration suffix
`\s\((\d+\.\d+\s*s?)\)$` of the jest PASS/FAIL summary regex. -/
def jestPFDurationSuffix (cs : List Char) : Bool :=
  match cs with
  | c :: '(' :: rest =>
    isPySpace c &&
    (let s1 := rest.span Char.isDigit
     !s1.1.isEmpty &&
     (match s1.2 with
      | '.' :: r2 =>
        let s2 := r2.span Char.isDigit
        !s2.1.isEmpty &&
        (match s2.2.dropWhile isPySpace with
         | 's' :: ')' :: [] => true
         | ')' :: [] => true
         | _ => false)
      | _ => false))
  | _ => false

/-- jestPFName extracts the lazy group `(.+?)` of the PASS/FAIL pattern. -/
def jestPFName : List Char → List Char
  | [] => []
  | c :: tail =>
    if tail.isEmpty || jestPFDurationSuffix tail then [c]
    else c :: jestPFName tail

/-- jestPFStatusWord tries the alternation `(PASS|FAIL|SKIP)` at the start of
the stripped line, returning the status and the remainder. -/
def jestPFStatusWord (l : List Char) : Option (TestStatus × List Char) :=
  if listBeginsWith l "PASS".data then some (.PASSED, l.drop 4)
  else if listBeginsWith l "FAIL".data then some (.FAILED, l.drop 4)
  else if listBeginsWith l "SKIP".data then some (.SKIPPED, l.drop 4)
  else none

/-- jestPassFailLine embeds one iteration of the second loop of
`parse_log_jest`:
`re.match(r"^\s*(PASS|FAIL|SKIP)\s+(.+?)(?:\s\((\d+\.\d+\s*s?)\))?$",
line.strip())`.  After the status word, `\s+` requires at least one
whitespace character; because the line has been stripped it cannot end in
whitespace, so the name group is the non-empty remainder after the
whitespace run. -/
def jestPassFailLine (line : List Char) : Option (String × TestStatus) :=
  let l := stripChars line
  match jestPFStatusWord l with
  | none => none
  | some (st, rest) =>
    let sp := rest.span isPySpace
    if sp.1.isEmpty || sp.2.isEmpty then none
    else some (⟨jestPFName sp.2⟩, st)

/-- jestPassFailScan runs the PASS/FAIL pattern over every line. -/
def jestPassFailScan (lines : List (List Char)) : ClassMap :=
  lines.foldl
    (fun m l =>
      match jestPassFailLine l with
      | some (name, st) => dinsert m name st
      | none => m)
    []

/-- jestOptCount parses one optional summary group `(?:,\s+(\d+)\s+<word>)?`;
on failure nothing is consumed and the count is 0 (the code runs
`int(match.group(i)) if match.group(i) else 0`). -/
def jestOptCount (cs : List Char) (word : List Char) : Nat × List Char :=
  match cs with
  | ',' :: r0 =>
    let w1 := r0.span isPySpace
    let d := w1.2.span Char.isDigit
    let w2 := d.2.span isPySpace
    if !w1.1.isEmpty && !d.1.isEmpty && !w2.1.isEmpty &&
        listBeginsWith w2.2 word then
      (digitsToNat d.1, w2.2.drop word.length)
    else (0, ',' :: r0)
  | _ => (0, cs)

/-- jestSummaryHere tries the summary regex
`Tests:\s+(\d+)\s+passed(?:,\s+(\d+)\s+failed)?(?:,\s+(\d+)\s+skipped)?(?:,\s+(\d+)\s+total)?`
anchored at the head of `cs`, returning (passed, failed, skipped). -/
def jestSummaryHere (cs : List Char) : Option (Nat × Nat × Nat) :=
  if listBeginsWith cs "Tests:".data then
    let r0 := cs.drop 6
    let w1 := r0.span isPySpace
    if w1.1.isEmpty then none else
    let d1 := w1.2.span Char.isDigit
    if d1.1.isEmpty then none else
    let w2 := d1.2.span isPySpace
    if w2.1.isEmpty then none else
    if listBeginsWith w2.2 "passed".data then
      let r4 := w2.2.drop 6
      let fr := jestOptCount r4 "failed".data
      let kr := jestOptCount fr.2 "skipped".data
      some (digitsToNat d1.1, fr.1, kr.1)
    else none
  else none

/-- jestSummarySearch embeds `re.search` of the summary pattern on one line:
the leftmost position where the pattern matches. -/
def jestSummarySearch : List Char → Option (Nat × Nat × Nat)
  | [] => none
  | c :: rest =>
    match jestSummaryHere (c :: rest) with
    | some x => some x
    | none => jestSummarySearch rest

/-- jestFindSummary returns the counts from the first line on which the
summary pattern matches (the code `break`s after the first such line). -/
def jestFindSummary : List (List Char) → Option (Nat × Nat × Nat)
  | [] => none
  | l :: rest =>
    match jestSummarySearch l with
    | some x => some x
    | none => jestFindSummary rest

/-- insertKeys folds `m[k] = st` over a list of keys, embedding the
synthesis loops `for i in range(n): m[f"..."] = status`. -/
def insertKeys (m : ClassMap) (ks : List String) (st : TestStatus) : ClassMap :=
  ks.foldl (fun acc k => dinsert acc k st) m

/-- synthNames tag n f renders the synthesized identifiers
`tag + str (f i)` for `i in range(n)`. -/
def synthNames (tag : String) (n : Nat) (f : Nat → Nat) : List String :=
  (List.range n).map (fun i => tag ++ Nat.repr (f i))

/-- parse_log_jest embeds `parse_log_jest` of `log_parser/parsers/jest.py`:
checkmark lines first, the PASS/FAIL form if that found nothing, then the
`Tests: N passed, ...` summary line supplements the map with synthesized
entries for the declared counts not yet accounted for.  The Python
`missing = declared - parsed; if missing > 0: range(missing)` is embedded as
truncated `Nat` subtraction, which produces the same number of entries. -/
def parse_log_jest (log : String) : ClassMap :=
  let lines := splitLines log
  let m1 := jestCheckmarkScan lines
  let m2 := if m1.isEmpty then jestPassFailScan lines else m1
  match jestFindSummary lines with
  | none => m2
  | some (p, f, k) =>
    let mp := p - countStatus m2 .PASSED
    let mf := f - countStatus m2 .FAILED
    let mk := k - countStatus m2 .SKIPPED
    let m3 := insertKeys m2 (synthNames "jest_test_" mp (· + 1)) .PASSED
    let m4 := insertKeys m3 (synthNames "jest_failed_test_" mf (· + 1)) .FAILED
    insertKeys m4 (synthNames "jest_skipped_test_" mk (· + 1)) .SKIPPED

/-! ### The ctest strategy (`log_parser/parsers/ctest.py`) -/

/-- ctestNameChar models the class `[\w . / dash]`. -/
def ctestNameChar (c : Char) : Bool :=
  isWordChar c || c = '-' || c = '/' || c = '.'

/-- listBeginsWithCI is `listBeginsWith` under `re.IGNORECASE`: the pattern is
given lowercased and each subject character is lowercased before comparison. -/
def listBeginsWithCI : List Char → List Char → Bool
  | _, [] => true
  | [], _ :: _ => false
  | c :: cs, d :: ds => pyLowerChar c = d && listBeginsWithCI cs ds

/-- ctestMatchHere tries the per-test pattern
`\s*\d+/\d+\s+Test\s+#\d+:\s+([\w . / dash]+)\s+\.+\s+(Passed|Failed)`
(`re.IGNORECASE`) anchored at this position.  Because the name class
contains `.`, the captured name is the maximal run of name characters and
the following `\s+\.+` forces whitespace before the dot leader, exactly as
the regex backtracking resolves it. -/
def ctestMatchHere (cs : List Char) : Option (String × TestStatus) :=
  let r0 := cs.dropWhile isPySpace
  let d1 := r0.span Char.isDigit
  if d1.1.isEmpty then none else
  match d1.2 with
  | '/' :: r1 =>
    let d2 := r1.span Char.isDigit
    if d2.1.isEmpty then none else
    let w1 := d2.2.span isPySpace
    if w1.1.isEmpty then none else
    if listBeginsWithCI w1.2 "test".data then
      let w2 := (w1.2.drop 4).span isPySpace
      if w2.1.isEmpty then none else
      match w2.2 with
      | '#' :: r3 =>
        let d3 := r3.span Char.isDigit
        if d3.1.isEmpty then none else
        match d3.2 with
        | ':' :: r4 =>
          let w3 := r4.span isPySpace
          if w3.1.isEmpty then none else
          let nm := w3.2.span ctestNameChar
          if nm.1.isEmpty then none else
          let w4 := nm.2.span isPySpace
          if w4.1.isEmpty then none else
          let dots := w4.2.span (fun c => c = '.')
          if dots.1.isEmpty then none else
          let w5 := dots.2.span isPySpace
          if w5.1.isEmpty then none else
          if listBeginsWithCI w5.2 "passed".data then some (⟨nm.1⟩, .PASSED)
          else if listBeginsWithCI w5.2 "failed".data then some (⟨nm.1⟩, .FAILED)
          else none
        | _ => none
      | _ => none
    else none
  | _ => none

/-- ctestScan embeds `ctest_pattern.finditer(log)` feeding `results`.  The
scan advances one character at a time; a successful match region cannot
contain the start of a second complete match (a second match would need its
own `\d+/\d+ ... Test ... #` token sequence, which the region does not
contain), so re-scanning inside a match region only ever re-derives the same
(name, status) pair, and `dinsert` of an identical pair is idempotent —
the resulting map equals the `finditer` one. -/
def ctestScan : List Char → ClassMap → ClassMap
  | [], m => m
  | c :: rest, m =>
    match ctestMatchHere (c :: rest) with
    | some (name, st) => ctestScan rest (dinsert m name st)
    | none => ctestScan rest m

/-- pySplitlinesAux models Python `str.splitlines()`: the boundary set is
`\n`, `\r`, `\r\n` (one boundary), `\x0b`, `\x0c`, `\x1c`, `\x1d`, `\x1e`,
`\x85`, `\u2028`, `\u2029`, and a trailing boundary produces no final empty
line. -/
def pySplitlinesAux : List Char → List Char → List (List Char)
  | [], acc => if acc.isEmpty then [] else [acc.reverse]
  | '\r' :: '\n' :: rest, acc => acc.reverse :: pySplitlinesAux rest []
  | c :: rest, acc =>
    if c = '\r' ∨ c = '\n' ∨ c = '\x0b' ∨ c = '\x0c' ∨ c = '\x1c' ∨
        c = '\x1d' ∨ c = '\x1e' ∨ c = '\x85' ∨ c = '\u2028' ∨ c = '\u2029' then
      acc.reverse :: pySplitlinesAux rest []
    else pySplitlinesAux rest (c :: acc)

/-- ctestFailedItem tries one chunk `\s+\d+\s+-\s+[\w . / dash]+.*\n?` of the
FAILED-section repetition anchored here, returning the remainder after it.
Every `\s+` run may cross newlines (Python `\s` includes the newline) and is
taken maximally: `\s` is disjoint from the digit class, from the dash and
from the name class, so backtracking can never shorten a run.  `.*` (which
excludes the newline) and the final `\n?` are taken greedily; nothing after
the repetition can force them shorter. -/
def ctestFailedItem (cs : List Char) : Option (List Char) :=
  let w1 := cs.span isPySpace
  if w1.1.isEmpty then none else
  let d := w1.2.span Char.isDigit
  if d.1.isEmpty then none else
  let w2 := d.2.span isPySpace
  if w2.1.isEmpty then none else
  match w2.2 with
  | '-' :: r =>
    let w3 := r.span isPySpace
    if w3.1.isEmpty then none else
    let nm := w3.2.span ctestNameChar
    if nm.1.isEmpty then none else
    let rest := nm.2.dropWhile (fun c => c ≠ '\n')
    match rest with
    | '\n' :: r2 => some r2
    | _ => some rest
  | _ => none

/-- ctestFailedRep consumes further repetition chunks greedily; each chunk
consumes at least one character, so the input length bounds the fuel. -/
def ctestFailedRep : Nat → List Char → List Char
  | 0, cs => cs
  | fuel + 1, cs =>
    match ctestFailedItem cs with
    | some rest => ctestFailedRep fuel rest
    | none => cs

/-- ctestNumDashHere tries `\d+\s+-\s+([\w . / dash]+)` anchored here. -/
def ctestNumDashHere (cs : List Char) : Option String :=
  let d := cs.span Char.isDigit
  if d.1.isEmpty then none else
  let w1 := d.2.span isPySpace
  if w1.1.isEmpty then none else
  match w1.2 with
  | '-' :: r =>
    let w2 := r.span isPySpace
    if w2.1.isEmpty then none else
    let nm := w2.2.span ctestNameChar
    if nm.1.isEmpty then none else some ⟨nm.1⟩
  | _ => none

/-- ctestNumDashSearch embeds `re.search(r'\d+\s+-\s+([\w . / dash]+)', line)`. -/
def ctestNumDashSearch : List Char → Option String
  | [] => none
  | c :: rest =>
    match ctestNumDashHere (c :: rest) with
    | some x => some x
    | none => ctestNumDashSearch rest

/-- ctestFailedHere tries the full FAILED-section pattern
`The following tests FAILED:\n((?:\s+\d+\s+-\s+[\w . / dash]+.*\n?)+)`
anchored at this position: the literal header, then at least one greedily
repeated chunk; the returned value is the text captured by group 1 (the
concatenation of the chunks). -/
def ctestFailedHere (cs : List Char) : Option (List Char) :=
  let hdr := "The following tests FAILED:\n".data
  if listBeginsWith cs hdr then
    let tail := cs.drop hdr.length
    match ctestFailedItem tail with
    | some rest1 =>
      let rem := ctestFailedRep tail.length rest1
      some (tail.take (tail.length - rem.length))
    | none => none
  else none

/-- ctestFailedBlockSearch embeds `re.search` of the FAILED-section pattern:
at a position where the header matches but no chunk follows, the match as a
whole fails and the search retries from the next position, so a later
header occurrence can still produce the section. -/
def ctestFailedBlockSearch : List Char → Option (List Char)
  | [] => none
  | c :: rest =>
    match ctestFailedHere (c :: rest) with
    | some b => some b
    | none => ctestFailedBlockSearch rest

/-- ctestFailedSection embeds the FAILED-section step of `parse_log_ctest`:
the search for the section pattern, then `failed_section.group(1).splitlines()`
with the per-line `re.search` of `\d+\s+-\s+([\w . / dash]+)`, collecting
the captured names in order. -/
def ctestFailedSection (cs : List Char) : Option (List String) :=
  match ctestFailedBlockSearch cs with
  | none => none
  | some block => some ((pySplitlinesAux block []).filterMap ctestNumDashSearch)

/-- ctestSummaryHere tries
`(\d+)%\s+tests\s+passed,\s+(\d+)\s+tests\s+failed\s+out\s+of\s+(\d+)`
(`re.IGNORECASE`) anchored at this position, returning
(percent, failed, total). -/
def ctestSummaryHere (cs : List Char) : Option (Nat × Nat × Nat) :=
  let d1 := cs.span Char.isDigit
  if d1.1.isEmpty then none else
  match d1.2 with
  | '%' :: r0 =>
    let w1 := r0.span isPySpace
    if w1.1.isEmpty then none else
    if listBeginsWithCI w1.2 "tests".data then
      let w2 := (w1.2.drop 5).span isPySpace
      if w2.1.isEmpty then none else
      if listBeginsWithCI w2.2 "passed,".data then
        let w3 := (w2.2.drop 7).span isPySpace
        if w3.1.isEmpty then none else
        let d2 := w3.2.span Char.isDigit
        if d2.1.isEmpty then none else
        let w4 := d2.2.span isPySpace
        if w4.1.isEmpty then none else
        if listBeginsWithCI w4.2 "tests".data then
          let w5 := ((w4.2.drop 5)).span isPySpace
          if w5.1.isEmpty then none else
          if listBeginsWithCI w5.2 "failed".data then
            let w6 := (w5.2.drop 6).span isPySpace
            if w6.1.isEmpty then none else
            if listBeginsWithCI w6.2 "out".data then
              let w7 := (w6.2.drop 3).span isPySpace
              if w7.1.isEmpty then none else
              if listBeginsWithCI w7.2 "of".data then
                let w8 := (w7.2.drop 2).span isPySpace
                if w8.1.isEmpty then none else
                let d3 := w8.2.span Char.isDigit
                if d3.1.isEmpty then none
                else some (digitsToNat d1.1, digitsToNat d2.1, digitsToNat d3.1)
              else none
            else none
          else none
        else none
      else none
    else none
  | _ => none

/-- ctestSummarySearch embeds `re.search` of the ctest summary pattern. -/
def ctestSummarySearch : List Char → Option (Nat × Nat × Nat)
  | [] => none
  | c :: rest =>
    match ctestSummaryHere (c :: rest) with
    | some x => some x
    | none => ctestSummarySearch rest

/-- parse_log_ctest embeds `parse_log_ctest` of `log_parser/parsers/ctest.py`:
per-test lines, then the `The following tests FAILED:` section, and — only
when both produced nothing — synthesized entries from the
`N% tests passed, F tests failed out of T` summary (`total - failed` passed
entries; a negative Python difference gives an empty `range`, matching
truncated `Nat` subtraction). -/
def parse_log_ctest (log : String) : ClassMap :=
  let m1 := ctestScan log.data []
  let m2 :=
    match ctestFailedSection log.data with
    | some names => names.foldl (fun m n => dinsert m n .FAILED) m1
    | none => m1
  if m2.isEmpty then
    match ctestSummarySearch log.data with
    | some (_pct, f, t) =>
      insertKeys (insertKeys [] (synthNames "synthetic_pass_" (t - f) (fun i => i)) .PASSED)
        (synthNames "synthetic_fail_" f (fun i => i)) .FAILED
    | none => []
  else m2

/-! ### The eslint strategy (`log_parser/parsers/eslint.py`) -/

/-- eslintErrorHere tries `✖ (\d+) problems? \((\d+) errors?` anchored at
this position, returning the second group (the error count).  The optional
`s` of `problems?` is tried greedily first, as the regex engine does. -/
def eslintErrorHere (cs : List Char) : Option Nat :=
  match cs with
  | '✖' :: ' ' :: r0 =>
    let d1 := r0.span Char.isDigit
    if d1.1.isEmpty then none else
    match d1.2 with
    | ' ' :: r1 =>
      if listBeginsWith r1 "problem".data then
        let r2 := r1.drop 7
        let cont : List Char → Option Nat := fun r =>
          match r with
          | ' ' :: '(' :: r4 =>
            let d2 := r4.span Char.isDigit
            if d2.1.isEmpty then none else
            match d2.2 with
            | ' ' :: r5 =>
              if listBeginsWith r5 "error".data then some (digitsToNat d2.1)
              else none
            | _ => none
          | _ => none
        match r2 with
        | 's' :: r3 =>
          match cont r3 with
          | some x => some x
          | none => cont r2
        | _ => cont r2
      else none
    | _ => none
  | _ => none

/-- eslintErrorSearch embeds
`re.search(r"✖ (\d+) problems? \((\d+) errors?", log)`. -/
def eslintErrorSearch : List Char → Option Nat
  | [] => none
  | c :: rest =>
    match eslintErrorHere (c :: rest) with
    | some x => some x
    | none => eslintErrorSearch rest

/-- parse_log_eslint embeds `parse_log_eslint` of
`log_parser/parsers/eslint.py`: a single `eslint_check` entry, FAILED when
the `✖ ... (N errors` summary reports a positive error count, PASSED when it
reports zero or when `npm info ok` / `exit 0` appears; otherwise empty. -/
def parse_log_eslint (log : String) : ClassMap :=
  match eslintErrorSearch log.data with
  | some errorCount =>
    if errorCount > 0 then [("eslint_check", .FAILED)]
    else [("eslint_check", .PASSED)]
  | none =>
    if strContains log "npm info ok" || strContains log "exit 0" then
      [("eslint_check", .PASSED)]
    else []

/-! ### The cspell strategy (`log_parser/parsers/cspell.py`) -/

/-- cspellHere tries `CSpell: Files checked: (\d+), Issues found: (\d+)`
anchored at this position, returning the issue count (the second group). -/
def cspellHere (cs : List Char) : Option Nat :=
  if listBeginsWith cs "CSpell: Files checked: ".data then
    let d1 := (cs.drop 23).span Char.isDigit
    if d1.1.isEmpty then none else
    if listBeginsWith d1.2 ", Issues found: ".data then
      let d2 := (d1.2.drop 16).span Char.isDigit
      if d2.1.isEmpty then none else some (digitsToNat d2.1)
    else none
  else none

/-- cspellSearch embeds `re.search` of the CSpell results pattern. -/
def cspellSearch : List Char → Option Nat
  | [] => none
  | c :: rest =>
    match cspellHere (c :: rest) with
    | some x => some x
    | none => cspellSearch rest

/-- parse_log_cspell embeds `parse_log_cspell` of
`log_parser/parsers/cspell.py`: a Prettier formatting gate, a `test:build`
gate, and the CSpell issue count gate, each under its fixed key. -/
def parse_log_cspell (log : String) : ClassMap :=
  let m0 : ClassMap := []
  let m1 :=
    if strContains log "All matched files use Prettier code style!" then
      dinsert m0 "prettier_format" .PASSED
    else if strContains log "Checking formatting..." &&
        strContains log "npm run suggest:format" then
      dinsert m0 "prettier_format" .FAILED
    else m0
  let m2 := if strContains log "test:build" then dinsert m1 "spec_build" .PASSED else m1
  match cspellSearch log.data with
  | some issues =>
    dinsert m2 "cspell_spelling" (if issues = 0 then .PASSED else .FAILED)
  | none => m2

/-! ### The stylelint strategy (`log_parser/parsers/stylelint.py`) -/

/-- parse_log_stylelint embeds `parse_log_stylelint` of
`log_parser/parsers/stylelint.py`: one `stylelint` entry when the word
`stylelint` occurs in the lowercased log, FAILED when `error` or `failed`
also occurs, otherwise PASSED; empty when the tool is not mentioned. -/
def parse_log_stylelint (log : String) : ClassMap :=
  if strContains (pyLower log) "stylelint" then
    if strContains (pyLower log) "error" || strContains (pyLower log) "failed" then
      [("stylelint", .FAILED)]
    else [("stylelint", .PASSED)]
  else []

/-! ### The gtest strategy (`log_parser/parsers/gtest.py`) -/

/-- gtestNameChar models the class `[\w:/.]`. -/
def gtestNameChar (c : Char) : Bool :=
  isWordChar c || c = ':' || c = '/' || c = '.'

/-- gtestBracketTag matches `\[\s*TAG\s*\]\s+` at the head of the line and
returns the remainder after the mandatory whitespace run. -/
def gtestBracketTag (l : List Char) (tag : List Char) : Option (List Char) :=
  match l with
  | '[' :: r0 =>
    let r1 := r0.dropWhile isPySpace
    if listBeginsWith r1 tag then
      match (r1.drop tag.length).dropWhile isPySpace with
      | ']' :: r3 =>
        let w := r3.span isPySpace
        if w.1.isEmpty then none else some w.2
      | _ => none
    else none
  | _ => none

/-- gtestRunLine matches `\[\s*RUN\s*\]\s+([\w:/.]+)` (a prefix match, the
rest of the line is ignored). -/
def gtestRunLine (l : List Char) : Option String :=
  match gtestBracketTag l "RUN".data with
  | some r =>
    let nm := r.span gtestNameChar
    if nm.1.isEmpty then none else some ⟨nm.1⟩
  | none => none

/-- gtestOkLine matches `\[\s*(OK|PASSED)\s*\]\s+([\w:/.]+)`. -/
def gtestOkLine (l : List Char) : Option String :=
  match gtestBracketTag l "OK".data with
  | some r =>
    let nm := r.span gtestNameChar
    if nm.1.isEmpty then none else some ⟨nm.1⟩
  | none =>
    match gtestBracketTag l "PASSED".data with
    | some r =>
      let nm := r.span gtestNameChar
      if nm.1.isEmpty then none else some ⟨nm.1⟩
    | none => none

/-- gtestFailedLine matches `\[\s*FAILED\s*\]\s+([\w:/.]+)(?:\s+\(|$)`: the
name must be followed by end of line or whitespace and an opening
parenthesis. -/
def gtestFailedLine (l : List Char) : Option String :=
  match gtestBracketTag l "FAILED".data with
  | some r =>
    let nm := r.span gtestNameChar
    if nm.1.isEmpty then none
    else if nm.2.isEmpty then some ⟨nm.1⟩
    else
      let w := nm.2.span isPySpace
      if !w.1.isEmpty then
        match w.2 with
        | '(' :: _ => some ⟨nm.1⟩
        | _ => none
      else none
  | none => none

/-- gtestSkipLine matches `\[\s*(SKIPPED|DISABLED)\s*\]\s+([\w:/.]+)`. -/
def gtestSkipLine (l : List Char) : Option String :=
  match gtestBracketTag l "SKIPPED".data with
  | some r =>
    let nm := r.span gtestNameChar
    if nm.1.isEmpty then none else some ⟨nm.1⟩
  | none =>
    match gtestBracketTag l "DISABLED".data with
    | some r =>
      let nm := r.span gtestNameChar
      if nm.1.isEmpty then none else some ⟨nm.1⟩
    | none => none

/-- allDigits models Python `str.isdigit()` for the names captured by
`[\w:/.]+` (non-empty by construction). -/
def allDigits (s : String) : Bool := !s.data.isEmpty && s.data.all Char.isDigit

/-- gtestLineStep embeds one iteration of the per-line loop of
`parse_log_gtest`, threading (map, current_test).  `current_test` is written
and cleared exactly as in the source (it is never read back for
insertion). -/
def gtestLineStep (st : ClassMap × Option String) (line : List Char) :
    ClassMap × Option String :=
  let l := stripChars line
  match gtestRunLine l with
  | some name => (st.1, some name)
  | none =>
    match gtestOkLine l with
    | some name => (dinsert st.1 name .PASSED, none)
    | none =>
      match gtestFailedLine l with
      | some name =>
        (if allDigits name then st.1 else dinsert st.1 name .FAILED, none)
      | none =>
        match gtestSkipLine l with
        | some name => (dinsert st.1 name .SKIPPED, none)
        | none => st

/-- gtestSummaryTestsHere tries `\[\s*=+\s*\]\s*(\d+)\s+tests?\s+from`
anchored at this position. -/
def gtestSummaryTestsHere (cs : List Char) : Option Nat :=
  match cs with
  | '[' :: r0 =>
    let r1 := r0.dropWhile isPySpace
    let eqs := r1.span (fun c => c = '=')
    if eqs.1.isEmpty then none else
    match eqs.2.dropWhile isPySpace with
    | ']' :: r2 =>
      let d := (r2.dropWhile isPySpace).span Char.isDigit
      if d.1.isEmpty then none else
      let w := d.2.span isPySpace
      if w.1.isEmpty then none else
      if listBeginsWith w.2 "test".data then
        let r3 := w.2.drop 4
        let r4 := if listBeginsWith r3 "s".data then r3.drop 1 else r3
        let w2 := r4.span isPySpace
        if w2.1.isEmpty then none else
        if listBeginsWith w2.2 "from".data then some (digitsToNat d.1) else none
      else none
    | _ => none
  | _ => none

/-- gtestSummaryCountHere tag tries `\[\s*TAG\s*\]\s*(\d+)\s+tests?`
anchored at this position (TAG is PASSED or FAILED; note `\s*` before the
count, unlike the per-test result lines which require `\s+`). -/
def gtestSummaryCountHere (cs : List Char) (tag : List Char) : Option Nat :=
  match cs with
  | '[' :: r0 =>
    let r1 := r0.dropWhile isPySpace
    if listBeginsWith r1 tag then
      match (r1.drop tag.length).dropWhile isPySpace with
      | ']' :: r2 =>
        let d := (r2.dropWhile isPySpace).span Char.isDigit
        if d.1.isEmpty then none else
        let w := d.2.span isPySpace
        if w.1.isEmpty then none else
        if listBeginsWith w.2 "test".data then some (digitsToNat d.1) else none
      | _ => none
    else none
  | _ => none

/-- searchWith f cs embeds `re.search`: the result of `f` at the leftmost
position where it succeeds. -/
def searchWith {α : Type} (f : List Char → Option α) : List Char → Option α
  | [] => f []
  | c :: rest =>
    match f (c :: rest) with
    | some x => some x
    | none => searchWith f rest

/-- parse_log_gtest embeds `parse_log_gtest` of `log_parser/parsers/gtest.py`:
the per-line RUN / OK / FAILED / SKIPPED state machine, then — only when no
per-line result was recorded — synthetic `test_passed_{i+1}` /
`test_failed_{i+1}` entries derived from the `[==========] N tests from`,
`[  PASSED  ] N tests` and `[  FAILED  ] N tests` summary lines. -/
def parse_log_gtest (log : String) : ClassMap :=
  let final := (splitLines log).foldl gtestLineStep ([], none)
  let m := final.1
  if !m.isEmpty then m
  else
    match searchWith gtestSummaryTestsHere log.data with
    | some _total =>
      let p := (searchWith (fun cs => gtestSummaryCountHere cs "PASSED".data) log.data).getD 0
      let f := (searchWith (fun cs => gtestSummaryCountHere cs "FAILED".data) log.data).getD 0
      insertKeys (insertKeys [] (synthNames "test_passed_" p (· + 1)) .PASSED)
        (synthNames "test_failed_" f (· + 1)) .FAILED
    | none => []

/-! ### The vitest strategy (`log_parser/parsers/vitest.py`) -/

/-- isAnsiSingle models the class `[@-Z\x5c-_]` of the ANSI-escape regex in
`strip_ansi`. -/
def isAnsiSingle (c : Char) : Bool :=
  ('@' ≤ c && c ≤ 'Z') || ('\x5c' ≤ c && c ≤ '_')

/-- isAnsiParam models `[0-?]`. -/
def isAnsiParam (c : Char) : Bool := '0' ≤ c && c ≤ '?'

/-- isAnsiInter models the class from space to slash (`[ ` dash `/]`). -/
def isAnsiInter (c : Char) : Bool := ' ' ≤ c && c ≤ '/'

/-- isAnsiFinal models `[@-~]`. -/
def isAnsiFinal (c : Char) : Bool := '@' ≤ c && c ≤ '~'

/-- ansiBody matches the body (after the ESC byte) of the `ansi_escape`
regex of `strip_ansi`: one character in `[@-Z\x5c-_]`, or `[` then
parameter bytes `[0-?]*`, intermediate bytes (space to slash), and one
final byte `[@-~]`; returns the remainder. -/
def ansiBody (r : List Char) : Option (List Char) :=
  match r with
  | [] => none
  | c :: r1 =>
    if isAnsiSingle c then some r1
    else if c = '[' then
      let a := r1.dropWhile isAnsiParam
      let b := a.dropWhile isAnsiInter
      match b with
      | f :: b1 => if isAnsiFinal f then some b1 else none
      | [] => none
    else none

/-- stripAnsiAux is `strip_ansi` with explicit fuel; every step consumes at
least one character, so fuel equal to the input length never runs out. -/
def stripAnsiAux : Nat → List Char → List Char
  | 0, cs => cs
  | _ + 1, [] => []
  | fuel + 1, c :: rest =>
    if c = '\x1b' then
      match ansiBody rest with
      | some rem => stripAnsiAux fuel rem
      | none => c :: stripAnsiAux fuel rest
    else c :: stripAnsiAux fuel rest

/-- stripAnsi embeds `strip_ansi` of `log_parser/parsers/vitest.py`
(`ansi_escape.sub("", text)`). -/
def stripAnsi (cs : List Char) : List Char := stripAnsiAux cs.length cs

/-- vitestParenTail matches
`\s+\((\d+)\s+tests?(?:\s+\|\s+(\d+)\s+skipped)?\)\s+\d+\s*ms` — the part of
the file-summary pattern after the lazy file-path group — returning
(test count, skipped count, remainder after the match). -/
def vitestParenTail (r : List Char) : Option (Nat × Nat × List Char) :=
  let w := r.span isPySpace
  if w.1.isEmpty then none else
  match w.2 with
  | '(' :: r0 =>
    let d := r0.span Char.isDigit
    if d.1.isEmpty then none else
    let w1 := d.2.span isPySpace
    if w1.1.isEmpty then none else
    if listBeginsWith w1.2 "test".data then
      let r1 := w1.2.drop 4
      let r2 := if listBeginsWith r1 "s".data then r1.drop 1 else r1
      let skipTry : Option (Nat × List Char) :=
        let u1 := r2.span isPySpace
        if u1.1.isEmpty then none else
        match u1.2 with
        | '|' :: r3 =>
          let u2 := r3.span isPySpace
          if u2.1.isEmpty then none else
          let d2 := u2.2.span Char.isDigit
          if d2.1.isEmpty then none else
          let u3 := d2.2.span isPySpace
          if u3.1.isEmpty then none else
          if listBeginsWith u3.2 "skipped".data then
            some (digitsToNat d2.1, u3.2.drop 7)
          else none
        | _ => none
      let afterOpt : Nat × List Char :=
        match skipTry with
        | some (k, rem) => (k, rem)
        | none => (0, r2)
      match afterOpt.2 with
      | ')' :: r4 =>
        let w2 := r4.span isPySpace
        if w2.1.isEmpty then none else
        let d3 := w2.2.span Char.isDigit
        if d3.1.isEmpty then none else
        match d3.2.dropWhile isPySpace with
        | 'm' :: 's' :: rem => some (digitsToNat d.1, afterOpt.1, rem)
        | _ => none
      | _ => none
    else none
  | _ => none

/-- vitestLazyPath resolves the lazy group `(.*?)` of the file-summary
pattern: the shortest (possibly empty) run of non-newline characters after
which `vitestParenTail` matches. -/
def vitestLazyPath (acc : List Char) : List Char → Option (List Char × Nat × Nat × List Char)
  | [] => none
  | c :: rest =>
    match vitestParenTail (c :: rest) with
    | some (t, k, rem) => some (acc.reverse, t, k, rem)
    | none =>
      if c = '\n' then none
      else vitestLazyPath (c :: acc) rest

/-- vitestWsSplit resolves the backtracking of the post-glyph `\s+` of the
file-summary pattern: the run is tried longest first and handed back one
character at a time down to a single character, the lazy path group being
re-explored from empty at each split — so on `✓  (2 tests) 12ms` the run of
two spaces is split one-and-one around an empty path, as the regex engine
does. -/
def vitestWsSplit : Nat → List Char → Option (List Char × Nat × Nat × List Char)
  | 0, _ => none
  | w + 1, r0 =>
    match vitestLazyPath [] (r0.drop (w + 1)) with
    | some x => some x
    | none => vitestWsSplit w r0

/-- vitestFileHere tries the file-summary pattern
`([✓✗])\s+(.*?)\s+\((\d+)\s+tests?(?:\s+\|\s+(\d+)\s+skipped)?\)\s+\d+\s*ms`
anchored at this position: the glyph, then every split of the following
whitespace run between the greedy `\s+` (longest first) and the lazy path
group (shortest first). -/
def vitestFileHere (cs : List Char) : Option (List Char × TestStatus × Nat × Nat × List Char) :=
  match cs with
  | g :: rest =>
    if g = '✓' ∨ g = '✗' then
      let w := rest.span isPySpace
      if w.1.isEmpty then none else
      match vitestWsSplit w.1.length rest with
      | some (path, t, k, rem) =>
        some (path, if g = '✓' then .PASSED else .FAILED, t, k, rem)
      | none => none
    else none
  | [] => none

/-- vitestFileEntries embeds the body of the file-summary loop: entries
`{file_path.strip()}_test_{i}` for the non-skipped count and
`{file_path.strip()}_skipped_{i}` for the skipped count. -/
def vitestFileEntries (m : ClassMap) (path : List Char) (st : TestStatus)
    (t k : Nat) : ClassMap :=
  let base : String := ⟨stripChars path⟩
  let m1 := insertKeys m (synthNames (base ++ "_test_") (t - k) (fun i => i)) st
  insertKeys m1 (synthNames (base ++ "_skipped_") k (fun i => i)) .SKIPPED

/-- vitestFileScanAux embeds `file_summary_pattern.finditer`: on a match the
scan resumes after the matched region (matches are non-overlapping), with
fuel bounding the recursion (each step consumes at least one character). -/
def vitestFileScanAux : Nat → List Char → ClassMap → ClassMap
  | 0, _, m => m
  | _ + 1, [], m => m
  | fuel + 1, c :: rest, m =>
    match vitestFileHere (c :: rest) with
    | some (path, st, t, k, rem) =>
      vitestFileScanAux fuel rem (vitestFileEntries m path st t k)
    | none => vitestFileScanAux fuel rest m

/-- vitestIndivDur recognises the anchored optional suffix
`(?:\s+\d+\s+ms)?$` of the individual-test pattern. -/
def vitestIndivDur (r : List Char) : Bool :=
  let w := r.span isPySpace
  if w.1.isEmpty then false else
  let d := w.2.span Char.isDigit
  if d.1.isEmpty then false else
  let w2 := d.2.span isPySpace
  if w2.1.isEmpty then false else
  match w2.2 with
  | 'm' :: 's' :: [] => true
  | _ => false

/-- vitestIndivName resolves the lazy group `(.*?)` of the individual-test
pattern: the shortest (possibly empty) name after which the line ends or a
duration suffix closes it. -/
def vitestIndivName (r : List Char) : List Char :=
  match r with
  | [] => []
  | c :: tail =>
    if vitestIndivDur (c :: tail) then []
    else c :: vitestIndivName tail

/-- vitestIndivLine tries the individual-test pattern
`^\s+([✓✗])\s+(.*?)(?:\s+\d+\s+ms)?$` (re.MULTILINE) against one line. -/
def vitestIndivLine (l : List Char) : Option (List Char × TestStatus) :=
  let w := l.span isPySpace
  if w.1.isEmpty then none else
  match w.2 with
  | g :: rest =>
    if g = '✓' ∨ g = '✗' then
      let w2 := rest.span isPySpace
      if w2.1.isEmpty then none
      else some (vitestIndivName w2.2, if g = '✓' then .PASSED else .FAILED)
    else none
  | [] => none

/-- vitestIndivStep embeds one iteration of the individual-test loop,
including the `"(" in test_name and "tests)" in test_name` filter and the
key `individual_{test_name.strip()}_{len(results)}` whose index is the
current size of the map. -/
def vitestIndivStep (m : ClassMap) (l : List Char) : ClassMap :=
  match vitestIndivLine l with
  | some (name, st) =>
    if listContainsSub name "(".data && listContainsSub name "tests)".data then m
    else
      dinsert m (("individual_" : String) ++ ⟨stripChars name⟩ ++ "_" ++ Nat.repr m.length) st
  | none => m

/-- vitestSummaryHere tries
`Tests\s+(?:(\d+)\s+failed\s+\|)?\s*(?:(\d+)\s+passed\s+)?` anchored at this
position, returning (failed, passed); both optional groups default to 0.
The pattern as a whole succeeds as soon as `Tests` is followed by
whitespace. -/
def vitestSummaryHere (cs : List Char) : Option (Nat × Nat) :=
  if listBeginsWith cs "Tests".data then
    let w := (cs.drop 5).span isPySpace
    if w.1.isEmpty then none else
    let failedTry : Option (Nat × List Char) :=
      let d := w.2.span Char.isDigit
      if d.1.isEmpty then none else
      let u := d.2.span isPySpace
      if u.1.isEmpty then none else
      if listBeginsWith u.2 "failed".data then
        let v := (u.2.drop 6).span isPySpace
        if v.1.isEmpty then none else
        match v.2 with
        | '|' :: r => some (digitsToNat d.1, r)
        | _ => none
      else none
    let fr : Nat × List Char :=
      match failedTry with
      | some (f, r) => (f, r)
      | none => (0, w.2)
    let r2 := fr.2.dropWhile isPySpace
    let passedTry : Option Nat :=
      let d := r2.span Char.isDigit
      if d.1.isEmpty then none else
      let u := d.2.span isPySpace
      if u.1.isEmpty then none else
      if listBeginsWith u.2 "passed".data then
        let v := (u.2.drop 6).span isPySpace
        if v.1.isEmpty then none else some (digitsToNat d.1)
      else none
    some (fr.1, passedTry.getD 0)
  else none

/-- vitestPerCase is the per-case portion of `parse_log_vitest`: the
file-summary scan followed by the individual-test scan over the
ANSI-stripped text. -/
def vitestPerCase (cs : List Char) : ClassMap :=
  (splitLinesAux cs []).foldl vitestIndivStep (vitestFileScanAux cs.length cs [])

/-- parse_log_vitest embeds `parse_log_vitest` of
`log_parser/parsers/vitest.py`: ANSI stripping, the file-summary scan, the
individual-test scan, then the half-threshold reconciliation against the
`Tests N failed | M passed` summary.  The float comparison
`len(results) < (passed + failed) * 0.5` is embedded as
`2 * len < passed + failed`, which is equivalent for every count below
2^53 (the multiplication by the exact float 0.5 is exact there). -/
def parse_log_vitest (log : String) : ClassMap :=
  let cs := stripAnsi log.data
  let m2 := vitestPerCase cs
  match searchWith vitestSummaryHere cs with
  | none => m2
  | some (f, p) =>
    if 2 * m2.length < p + f then
      insertKeys (insertKeys [] (synthNames "vitest_summary_passed_" p (fun i => i)) .PASSED)
        (synthNames "vitest_summary_failed_" f (fun i => i)) .FAILED
    else m2

/-! ### The catch2 strategy (`log_parser/parsers/catch2.py`) -/

/-- catch2OverallHere tries `<OverallResult\s+success="(true|false)"`
anchored at this position, returning the captured boolean and the
remainder. -/
def catch2OverallHere (cs : List Char) : Option (Bool × List Char) :=
  if listBeginsWith cs "<OverallResult".data then
    let w := (cs.drop 14).span isPySpace
    if w.1.isEmpty then none else
    if listBeginsWith w.2 "success=\"true\"".data then some (true, w.2.drop 14)
    else if listBeginsWith w.2 "success=\"false\"".data then some (false, w.2.drop 15)
    else none
  else none

/-- catch2OverallSearch resolves the lazy `.*?` (re.DOTALL) between the
TestCase header and the OverallResult element: the first subsequent
occurrence. -/
def catch2OverallSearch : List Char → Option (Bool × List Char)
  | [] => none
  | c :: rest =>
    match catch2OverallHere (c :: rest) with
    | some x => some x
    | none => catch2OverallSearch rest

/-- catch2XmlHere tries the XML pattern
`<TestCase\s+name="([^"]+)"[^>]*>.*?<OverallResult\s+success="(true|false)"`
anchored at this position, returning (name, success, remainder). -/
def catch2XmlHere (cs : List Char) : Option (String × Bool × List Char) :=
  if listBeginsWith cs "<TestCase".data then
    let w := (cs.drop 9).span isPySpace
    if w.1.isEmpty then none else
    if listBeginsWith w.2 "name=\"".data then
      let nm := (w.2.drop 6).span (fun c => c ≠ '"')
      if nm.1.isEmpty then none else
      match nm.2 with
      | '"' :: r0 =>
        let attrs := r0.span (fun c => c ≠ '>')
        match attrs.2 with
        | '>' :: r1 =>
          match catch2OverallSearch r1 with
          | some (success, rem) => some (⟨nm.1⟩, success, rem)
          | none => none
        | _ => none
      | _ => none
    else none
  else none

/-- catch2XmlScanAux embeds the XML `re.finditer` loop: matches are
non-overlapping, the scan resumes after each match (fuel bounds the
recursion; every step consumes at least one character). -/
def catch2XmlScanAux : Nat → List Char → ClassMap → ClassMap
  | 0, _, m => m
  | _ + 1, [], m => m
  | fuel + 1, c :: rest, m =>
    match catch2XmlHere (c :: rest) with
    | some (name, success, rem) =>
      catch2XmlScanAux fuel rem (dinsert m name (if success then .PASSED else .FAILED))
    | none => catch2XmlScanAux fuel rest m

/-- listRemoveAllAux removes every occurrence of `pat` (non-empty) from the
list, as Python `str.replace(pat, "")`; fuel equal to the input length
suffices because every step consumes at least one character. -/
def listRemoveAllAux (pat : List Char) : Nat → List Char → List Char
  | 0, cs => cs
  | _ + 1, [] => []
  | fuel + 1, c :: rest =>
    if listBeginsWith (c :: rest) pat then
      listRemoveAllAux pat fuel ((c :: rest).drop pat.length)
    else c :: listRemoveAllAux pat fuel rest

/-- listRemoveAll embeds Python `s.replace(pat, "")` for non-empty `pat`. -/
def listRemoveAll (cs pat : List Char) : List Char :=
  listRemoveAllAux pat cs.length cs

/-- catch2TextStep embeds one iteration of the text-format loop of
`parse_log_catch2`: the substring tests for ` PASSED` / `... PASSED` (and
FAILED), with the name obtained by deleting ` PASSED` and `... ` and
stripping. -/
def catch2TextStep (m : ClassMap) (line : List Char) : ClassMap :=
  let l := stripChars line
  if listContainsSub l " PASSED".data || listContainsSub l "... PASSED".data then
    let name := stripChars (listRemoveAll (listRemoveAll l " PASSED".data) "... ".data)
    if name.isEmpty then m else dinsert m ⟨name⟩ .PASSED
  else if listContainsSub l " FAILED".data || listContainsSub l "... FAILED".data then
    let name := stripChars (listRemoveAll (listRemoveAll l " FAILED".data) "... ".data)
    if name.isEmpty then m else dinsert m ⟨name⟩ .FAILED
  else m

/-- catch2SummaryHere tries
`test cases:\s*(\d+)\s*\|\s*(\d+)\s*passed\s*\|\s*(\d+)\s*failed`
(`re.IGNORECASE`) anchored at this position, returning
(total, passed, failed). -/
def catch2SummaryHere (cs : List Char) : Option (Nat × Nat × Nat) :=
  if listBeginsWithCI cs "test cases:".data then
    let d1 := ((cs.drop 11).dropWhile isPySpace).span Char.isDigit
    if d1.1.isEmpty then none else
    match d1.2.dropWhile isPySpace with
    | '|' :: r1 =>
      let d2 := (r1.dropWhile isPySpace).span Char.isDigit
      if d2.1.isEmpty then none else
      if listBeginsWithCI (d2.2.dropWhile isPySpace) "passed".data then
        let r2 := (d2.2.dropWhile isPySpace).drop 6
        match r2.dropWhile isPySpace with
        | '|' :: r3 =>
          let d3 := (r3.dropWhile isPySpace).span Char.isDigit
          if d3.1.isEmpty then none else
          if listBeginsWithCI (d3.2.dropWhile isPySpace) "failed".data then
            some (digitsToNat d1.1, digitsToNat d2.1, digitsToNat d3.1)
          else none
        | _ => none
      else none
    | _ => none
  else none

/-- catch2AllPassedTail resolves `.*?(\d+)\s+test cases?\)` after the opening
parenthesis of the `All tests passed` form: the first position (without
crossing a newline, since `.` does not match one) where a digit run
followed by ` test cases?)` occurs. -/
def catch2AllPassedTail : List Char → Option Nat
  | [] => none
  | c :: rest =>
    let here : Option Nat :=
      let d := (c :: rest).span Char.isDigit
      if d.1.isEmpty then none else
      let w := d.2.span isPySpace
      if w.1.isEmpty then none else
      if listBeginsWithCI w.2 "test case".data then
        let r1 := w.2.drop 9
        let r2 := if listBeginsWithCI r1 "s".data then r1.drop 1 else r1
        match r2 with
        | ')' :: _ => some (digitsToNat d.1)
        | _ => none
      else none
    match here with
    | some x => some x
    | none => if c = '\n' then none else catch2AllPassedTail rest

/-- catch2AllPassedHere tries
`All tests passed\s*\(.*?(\d+)\s+test cases?\)` (`re.IGNORECASE`) anchored
at this position. -/
def catch2AllPassedHere (cs : List Char) : Option Nat :=
  if listBeginsWithCI cs "all tests passed".data then
    match (cs.drop 16).dropWhile isPySpace with
    | '(' :: r => catch2AllPassedTail r
    | _ => none
  else none

/-- parse_log_catch2 embeds `parse_log_catch2` of
`log_parser/parsers/catch2.py`: XML test cases first; otherwise the
text-format PASSED/FAILED lines; otherwise synthetic entries from the
`test cases: T | P passed | F failed` summary; otherwise from the
`All tests passed (... in N test cases)` form. -/
def parse_log_catch2 (log : String) : ClassMap :=
  let m1 := catch2XmlScanAux log.data.length log.data []
  if !m1.isEmpty then m1
  else
    let m2 := (splitLines log).foldl catch2TextStep []
    if !m2.isEmpty then m2
    else
      match searchWith catch2SummaryHere log.data with
      | some (_total, p, f) =>
        insertKeys (insertKeys [] (synthNames "test_passed_" p (· + 1)) .PASSED)
          (synthNames "test_failed_" f (· + 1)) .FAILED
      | none =>
        match searchWith catch2AllPassedHere log.data with
        | some p => insertKeys [] (synthNames "test_passed_" p (· + 1)) .PASSED
        | none => []

/-! ### The maven strategy (`log_parser/parsers/maven.py`) -/

/-- mavenTryTag attempts to strip one `[WORD]\s+` Ant/Maven log tag. -/
def mavenTryTag (l : List Char) (word : List Char) : Option (List Char) :=
  if listBeginsWith l ('[' :: (word ++ [']'])) then
    let sp := (l.drop (word.length + 2)).span isPySpace
    if sp.1.isEmpty then none else some sp.2
  else none

/-- mavenCleanLine embeds
`re.sub(r"^\[(INFO|DEBUG|WARNING|ERROR)\]\s+", "", line)`. -/
def mavenCleanLine (l : List Char) : List Char :=
  match mavenTryTag l "INFO".data with
  | some r => r
  | none =>
    match mavenTryTag l "DEBUG".data with
    | some r => r
    | none =>
      match mavenTryTag l "WARNING".data with
      | some r => r
      | none =>
        match mavenTryTag l "ERROR".data with
        | some r => r
        | none => l

/-- runningLine embeds `re.match(r"^Running\s+(.+)$", cleaned_line)`: the
class name is everything after the whitespace run; when the line ends in
whitespace the regex backtracks and captures the final whitespace
character. -/
def runningLine (cl : List Char) : Option String :=
  if listBeginsWith cl "Running".data then
    let sp := (cl.drop 7).span isPySpace
    if sp.1.isEmpty then none
    else if !sp.2.isEmpty then some ⟨sp.2⟩
    else if sp.1.length ≥ 2 then
      match sp.1.getLast? with
      | some c => some ⟨[c]⟩
      | none => none
    else none
  else none

/-- testsRunQuad parses the common summary head
`^Tests run:\s+(\d+),\s+Failures:\s+(\d+),\s+Errors:\s+(\d+),\s+Skipped:\s+(\d+)`
returning the four counts and the remainder of the line. -/
def testsRunQuad (cl : List Char) : Option (Nat × Nat × Nat × Nat × List Char) :=
  if listBeginsWith cl "Tests run:".data then
    let w1 := (cl.drop 10).span isPySpace
    if w1.1.isEmpty then none else
    let d1 := w1.2.span Char.isDigit
    if d1.1.isEmpty then none else
    match d1.2 with
    | ',' :: r1 =>
      let w2 := r1.span isPySpace
      if w2.1.isEmpty then none else
      if listBeginsWith w2.2 "Failures:".data then
        let w3 := (w2.2.drop 9).span isPySpace
        if w3.1.isEmpty then none else
        let d2 := w3.2.span Char.isDigit
        if d2.1.isEmpty then none else
        match d2.2 with
        | ',' :: r2 =>
          let w4 := r2.span isPySpace
          if w4.1.isEmpty then none else
          if listBeginsWith w4.2 "Errors:".data then
            let w5 := (w4.2.drop 7).span isPySpace
            if w5.1.isEmpty then none else
            let d3 := w5.2.span Char.isDigit
            if d3.1.isEmpty then none else
            match d3.2 with
            | ',' :: r3 =>
              let w6 := r3.span isPySpace
              if w6.1.isEmpty then none else
              if listBeginsWith w6.2 "Skipped:".data then
                let w7 := (w6.2.drop 8).span isPySpace
                if w7.1.isEmpty then none else
                let d4 := w7.2.span Char.isDigit
                if d4.1.isEmpty then none else
                some (digitsToNat d1.1, digitsToNat d2.1, digitsToNat d3.1,
                  digitsToNat d4.1, d4.2)
              else none
            | _ => none
          else none
        | _ => none
      else none
    | _ => none
  else none

/-- mavenDashIn resolves `.*?(?:--\s+in\s+(.+))?$` after the summary counts:
the capture after the first `--\s+in\s+` occurrence followed by at least
one character, if any. -/
def mavenDashIn : List Char → Option String
  | [] => none
  | c :: rest =>
    let here : Option String :=
      if listBeginsWith (c :: rest) "--".data then
        let w := ((c :: rest).drop 2).span isPySpace
        if w.1.isEmpty then none else
        if listBeginsWith w.2 "in".data then
          let w2 := (w.2.drop 2).span isPySpace
          if w2.1.isEmpty || w2.2.isEmpty then none else some ⟨w2.2⟩
        else none
      else none
    match here with
    | some x => some x
    | none => mavenDashIn rest

/-- classKeyRange renders the synthesized class-summary keys
`{cls}.test_{base + i}` for `i in range(n)`; the index is an `Int` because
the Python source can produce a negative index when the declared counts are
inconsistent. -/
def classKeyRange (cls : String) (base : Int) (n : Nat) : List String :=
  (List.range n).map (fun i => cls ++ ".test_" ++ toString (base + i))

/-- classSummaryEntries embeds the shared `Tests run:` insertion block of
`parse_log_maven` and `parse_log_junit`: with failures or errors, FAILED
entries first, then the computed passed count, then skipped; otherwise
passed then skipped.  Python `range` of a negative difference is empty,
matched by `Int.toNat`. -/
def classSummaryEntries (m : ClassMap) (cls : String) (t f e s : Nat) : ClassMap :=
  if f > 0 ∨ e > 0 then
    let m1 := insertKeys m (classKeyRange cls 1 (f + e)) .FAILED
    let m2 := insertKeys m1
      (classKeyRange cls ((f : Int) + e + 1) ((t : Int) - f - e - s).toNat) .PASSED
    insertKeys m2 (classKeyRange cls ((t : Int) - s + 1) s) .SKIPPED
  else
    let m1 := insertKeys m (classKeyRange cls 1 ((t : Int) - s).toNat) .PASSED
    insertKeys m1 (classKeyRange cls ((t : Int) - s + 1) s) .SKIPPED

/-- mavenFailTail resolves `.*?(?:<<<\s+(FAILURE|ERROR)!)?$` after
`Time elapsed:`: true when some tail position starts `<<<\s+FAILURE!` or
`<<<\s+ERROR!` ending the line. -/
def mavenFailTail : List Char → Bool
  | [] => false
  | c :: rest =>
    (if listBeginsWith (c :: rest) "<<<".data then
      let w := ((c :: rest).drop 3).span isPySpace
      if w.1.isEmpty then false
      else
        (listBeginsWith w.2 "FAILURE!".data && (w.2.drop 8).isEmpty) ||
        (listBeginsWith w.2 "ERROR!".data && (w.2.drop 6).isEmpty)
    else false) || mavenFailTail rest

/-- mavenMethodLine embeds
`re.match(r"^(\w+)\([^)]+\)\s+Time elapsed:.*?(?:<<<\s+(FAILURE|ERROR)!)?$",
cleaned_line)`, returning the method name and whether a failure indicator
closed the line. -/
def mavenMethodLine (cl : List Char) : Option (String × Bool) :=
  let w := cl.span isWordChar
  if w.1.isEmpty then none else
  match w.2 with
  | '(' :: r =>
    let inner := r.span (fun c => c ≠ ')')
    if inner.1.isEmpty then none else
    match inner.2 with
    | ')' :: r2 =>
      let sp := r2.span isPySpace
      if sp.1.isEmpty then none else
      if listBeginsWith sp.2 "Time elapsed:".data then
        some (⟨w.1⟩, mavenFailTail (sp.2.drop 13))
      else none
    | _ => none
  | _ => none

/-- mavenLineStep embeds one iteration of the main loop of
`parse_log_maven`, threading (map, current_class). -/
def mavenLineStep (st : ClassMap × Option String) (line : List Char) :
    ClassMap × Option String :=
  let cl := mavenCleanLine (stripChars line)
  match runningLine cl with
  | some cls => (st.1, some cls)
  | none =>
    match testsRunQuad cl with
    | some (t, f, e, s, rest) =>
      let testClass : Option String :=
        match mavenDashIn rest with
        | some g5 => some g5
        | none => st.2
      match testClass with
      | some cls => (classSummaryEntries st.1 cls t f e s, st.2)
      | none => st
    | none =>
      match mavenMethodLine cl with
      | some (meth, failed) =>
        let name : String :=
          match st.2 with
          | some cls => cls ++ "." ++ meth
          | none => meth
        (dinsert st.1 name (if failed then .FAILED else .PASSED), st.2)
      | none => st

/-- wordDotWordHere tries `(\w+\.\w+)` (both runs maximal) anchored at this
position. -/
def wordDotWordHere (cs : List Char) : Option (List Char) :=
  let r1 := cs.span isWordChar
  if r1.1.isEmpty then none else
  match r1.2 with
  | '.' :: r =>
    let r2 := r.span isWordChar
    if r2.1.isEmpty then none else some (r1.1 ++ '.' :: r2.1)
  | _ => none

/-- wordDotWordSearch resolves the lazy `.*?(\w+\.\w+)`: the match at the
earliest possible start position. -/
def wordDotWordSearch : List Char → Option (List Char)
  | [] => none
  | c :: rest =>
    match wordDotWordHere (c :: rest) with
    | some x => some x
    | none => wordDotWordSearch rest

/-- mavenPFLine embeds the alternative JUnit-style pattern of
`parse_log_maven`: `^\s*(PASS|FAIL|SKIP).*?(\w+\.\w+).*$` against the
stripped line. -/
def mavenPFLine (line : List Char) : Option (String × TestStatus) :=
  let l := stripChars line
  match jestPFStatusWord l with
  | some (st, rest) =>
    match wordDotWordSearch rest with
    | some nm => some (⟨nm⟩, st)
    | none => none
  | none => none

/-- gradleTail matches `\s+>\s+(\w+)\s+(PASSED|FAILED|SKIPPED)$` — the part
of the Gradle pattern after the lazy class-name group. -/
def gradleTail (r : List Char) : Option (String × TestStatus) :=
  let w1 := r.span isPySpace
  if w1.1.isEmpty then none else
  match w1.2 with
  | '>' :: r1 =>
    let w2 := r1.span isPySpace
    if w2.1.isEmpty then none else
    let meth := w2.2.span isWordChar
    if meth.1.isEmpty then none else
    let w3 := meth.2.span isPySpace
    if w3.1.isEmpty then none else
    if w3.2 = "PASSED".data then some (⟨meth.1⟩, .PASSED)
    else if w3.2 = "FAILED".data then some (⟨meth.1⟩, .FAILED)
    else if w3.2 = "SKIPPED".data then some (⟨meth.1⟩, .SKIPPED)
    else none
  | _ => none

/-- gradleScan resolves the lazy `(.+?)` class-name group of the Gradle
pattern: the name accumulated so far is `accRev.reverse` and the scan
extends it one character at a time until the remainder matches
`gradleTail`. -/
def gradleScan (accRev : List Char) : List Char → Option (String × String × TestStatus)
  | [] => none
  | c :: rest =>
    match gradleTail (c :: rest) with
    | some (meth, st) => some (⟨accRev.reverse⟩, meth, st)
    | none => gradleScan (c :: accRev) rest

/-- gradleLine embeds
`re.match(r"^(.+?)\s+>\s+(\w+)\s+(PASSED|FAILED|SKIPPED)$", line.strip())`. -/
def gradleLine (line : List Char) : Option (String × String × TestStatus) :=
  match stripChars line with
  | c :: rest => gradleScan [c] rest
  | [] => none

/-- parse_log_maven embeds `parse_log_maven` of
`log_parser/parsers/maven.py`: the Surefire per-line pass (Running lines,
`Tests run:` class summaries, verbose method lines), then — if that found
nothing — the JUnit-style PASS/FAIL lines, then the Gradle
`class > method STATUS` lines. -/
def parse_log_maven (log : String) : ClassMap :=
  let lines := splitLines log
  let m1 := (lines.foldl mavenLineStep ([], none)).1
  let m2 :=
    if m1.isEmpty then
      lines.foldl
        (fun m l =>
          match mavenPFLine l with
          | some (nm, st) => dinsert m nm st
          | none => m)
        []
    else m1
  if m2.isEmpty then
    lines.foldl
      (fun m l =>
        match gradleLine l with
        | some (cls, meth, st) => dinsert m (cls ++ "." ++ meth) st
        | none => m)
      []
  else m2

/-! ### The junit strategy (`log_parser/parsers/junit.py`) -/

/-- junitCleanLine embeds `re.sub(r"^\[[^\]]+\]\s+", "", line)`: an Ant log
tag of any non-empty bracket content followed by whitespace is removed. -/
def junitCleanLine (l : List Char) : List Char :=
  match l with
  | '[' :: r =>
    let inner := r.span (fun c => c ≠ ']')
    if inner.1.isEmpty then l
    else
      match inner.2 with
      | ']' :: r2 =>
        let sp := r2.span isPySpace
        if sp.1.isEmpty then l else sp.2
      | _ => l
  | _ => l

/-- junitLineStep embeds one iteration of the first loop of
`parse_log_junit`, threading (map, current_class): `Running` lines set the
class, `Tests run:` summaries synthesize the per-class entries when a class
is current. -/
def junitLineStep (st : ClassMap × Option String) (line : List Char) :
    ClassMap × Option String :=
  let cl := junitCleanLine (stripChars line)
  match runningLine cl with
  | some cls => (st.1, some cls)
  | none =>
    match testsRunQuad cl with
    | some (t, f, e, s, _rest) =>
      match st.2 with
      | some cls => (classSummaryEntries st.1 cls t f e s, st.2)
      | none => st
    | none => st

/-- junitMethodLine embeds
`re.match(r"^(\w+)\(([^)]+)\):\s*(PASSED|FAILED|ERROR|SKIPPED)$", cleaned)`:
an individual test method with its class in parentheses and an explicit
status ending the line. -/
def junitMethodLine (cl : List Char) : Option (String × TestStatus) :=
  let w := cl.span isWordChar
  if w.1.isEmpty then none else
  match w.2 with
  | '(' :: r =>
    let inner := r.span (fun c => c ≠ ')')
    if inner.1.isEmpty then none else
    match inner.2 with
    | ')' :: ':' :: r2 =>
      let rest := r2.dropWhile isPySpace
      let name : String := (⟨inner.1⟩ : String) ++ "." ++ ⟨w.1⟩
      if rest = "PASSED".data then some (name, .PASSED)
      else if rest = "FAILED".data then some (name, .FAILED)
      else if rest = "ERROR".data then some (name, .FAILED)
      else if rest = "SKIPPED".data then some (name, .SKIPPED)
      else none
    | _ => none
  | _ => none

/-- parse_log_junit embeds `parse_log_junit` of
`log_parser/parsers/junit.py`: the Ant per-class summary pass, then — if it
found nothing — the individual `method(class): STATUS` lines. -/
def parse_log_junit (log : String) : ClassMap :=
  let lines := splitLines log
  let m1 := (lines.foldl junitLineStep ([], none)).1
  if m1.isEmpty then
    lines.foldl
      (fun m l =>
        match junitMethodLine (junitCleanLine (stripChars l)) with
        | some (nm, st) => dinsert m nm st
        | none => m)
      []
  else m1

/-! ### The registry and selector (`verify_testing.py`) -/

/-- Parser is the type of a registered strategy as the selector sees it: a
function from the log text to a status map, with `none` standing for a call
that raises (the `try`/`except` in `try_parsers` is the only consumer of
that case). -/
abbrev Parser := String → Option ClassMap

/-- totalParser registers a never-raising strategy. -/
def totalParser (f : String → ClassMap) : Parser := fun log => some (f log)

/-- MissingParsers collects the seven imported parser modules whose sources
are not part of this snapshot: `mocha`, `pytest`, `go_test`, `cargo`,
`gradle`, `lodash_custom` and `karma`.  Modelled from the spec: the
specification constrains a strategy only to be a pure function of the log
text, so each is an abstract `Parser` and theorems about the selector
quantify over them. -/
structure MissingParsers where
  mocha : Parser
  pytest : Parser
  go_test : Parser
  cargo : Parser
  gradle : Parser
  lodash_custom : Parser
  karma : Parser

/-- defaultMissing instantiates the missing parser modules.  Modelled from
the spec: a strategy recognising none of its patterns returns an empty map,
so the instance used for closed evaluations is the empty strategy; every
closed statement below that mentions it remains true for any other
instantiation (this is noted where it is used). -/
def defaultMissing : MissingParsers :=
  ⟨fun _ => some [], fun _ => some [], fun _ => some [], fun _ => some [],
   fun _ => some [], fun _ => some [], fun _ => some []⟩

/-- PARSERS embeds the registry dict of `verify_testing.py` in declaration
order; `jasmine` maps to the karma parser, as in the source. -/
def PARSERS (mp : MissingParsers) : List (String × Parser) :=
  [("jest", totalParser parse_log_jest),
   ("mocha", mp.mocha),
   ("pytest", mp.pytest),
   ("go_test", mp.go_test),
   ("cargo", mp.cargo),
   ("maven", totalParser parse_log_maven),
   ("gradle", mp.gradle),
   ("junit", totalParser parse_log_junit),
   ("lodash_custom", mp.lodash_custom),
   ("karma", mp.karma),
   ("jasmine", mp.karma),
   ("cspell", totalParser parse_log_cspell),
   ("stylelint", totalParser parse_log_stylelint),
   ("eslint", totalParser parse_log_eslint)]

/-- PARSER_NAMES is `list(PARSERS.keys())` in declaration order. -/
def PARSER_NAMES : List String :=
  ["jest", "mocha", "pytest", "go_test", "cargo", "maven", "gradle", "junit",
   "lodash_custom", "karma", "jasmine", "cspell", "stylelint", "eslint"]

/-- LANGUAGE_FRAMEWORKS embeds the language table of `verify_testing.py`. -/
def LANGUAGE_FRAMEWORKS : List (String × List String) :=
  [("javascript", ["jest", "mocha", "karma", "jasmine", "cspell", "stylelint", "eslint"]),
   ("python", ["pytest"]),
   ("go", ["go_test"]),
   ("rust", ["cargo"]),
   ("java", ["gradle", "maven", "junit"])]

/-- alookup embeds a Python dict lookup over an association list whose keys
are unique. -/
def alookup {α : Type} : List (String × α) → String → Option α
  | [], _ => none
  | p :: rest, name => if p.1 = name then some p.2 else alookup rest name

/-- tryStep is one iteration of the loop of `try_parsers` over the
accumulator `(combined_results, successful_parsers)`: a name absent from
the registry is skipped (`if parser_name not in PARSERS: continue`), a
raising parser is caught and skipped (`except Exception: continue`), an
empty result is not merged, and a non-empty result is merged with
`combined_results.update(result)` and the name appended. -/
def tryStep (reg : List (String × Parser)) (log : String)
    (acc : ClassMap × List String) (n : String) : ClassMap × List String :=
  match alookup reg n with
  | none => acc
  | some f =>
    match f log with
    | none => acc
    | some r =>
      if r.isEmpty then acc
      else (dupdate acc.1 r, acc.2 ++ [n])

/-- tryFold is the loop of `try_parsers`. -/
def tryFold (reg : List (String × Parser)) (log : String)
    (ns : List String) (acc : ClassMap × List String) : ClassMap × List String :=
  ns.foldl (tryStep reg log) acc

/-- try_parsers embeds `try_parsers` of `verify_testing.py`: the merged
map together with the successful parser names (the source joins them with
`+` for the report), or `none` when no parser recognised anything. -/
def try_parsers (reg : List (String × Parser)) (log : String)
    (names : List String) : Option (ClassMap × List String) :=
  let acc := tryFold reg log names ([], [])
  if acc.1.isEmpty then none else some acc

/-- selectCandidates embeds the candidate-list construction of
`parse_test_output`: the exact framework hint when registered (the Python
guard `if test_framework and ...` makes the empty hint select nothing),
then every strategy of the language table entry, skipping duplicates. -/
def selectCandidates (fw lang : String) : List String :=
  let base := if fw ≠ "" ∧ PARSER_NAMES.contains fw then [fw] else []
  match alookup LANGUAGE_FRAMEWORKS lang with
  | some fl => fl.foldl (fun acc f => if acc.contains f then acc else acc ++ [f]) base
  | none => base

/-- parse_test_output embeds the selection core of `parse_test_output` of
`verify_testing.py` (the surrounding metadata/file loading and report
printing are I/O glue around this function of (log, framework hint,
language hint)): hint-selected candidates first; when they produce
nothing, the fallback sweep over every not-yet-tried registered parser in
declaration order. -/
def parse_test_output (mp : MissingParsers) (log : String) (fw lang : String) :
    Option (ClassMap × List String) :=
  let toTry := selectCandidates fw lang
  let phase1 := if toTry.isEmpty then none else try_parsers (PARSERS mp) log toTry
  match phase1 with
  | some r => some r
  | none =>
    let untried := PARSER_NAMES.filter (fun p => !toTry.contains p)
    if untried.isEmpty then none else try_parsers (PARSERS mp) log untried

/-- embeddedStrategies collects the strategies of this repository whose
sources are part of the snapshot, each under its module name. -/
def embeddedStrategies : List (String × (String → ClassMap)) :=
  [("jest", parse_log_jest), ("ctest", parse_log_ctest),
   ("eslint", parse_log_eslint), ("cspell", parse_log_cspell),
   ("stylelint", parse_log_stylelint), ("vitest", parse_log_vitest),
   ("gtest", parse_log_gtest), ("catch2", parse_log_catch2),
   ("maven", parse_log_maven), ("junit", parse_log_junit)]

/-- gtestResultDecl is the per-test result a line declares in
`parse_log_gtest`'s per-line loop: none for a RUN line (consumed before the
result patterns), the status of the OK/PASSED, FAILED (digit-only names are
the summary-line guard) or SKIPPED/DISABLED match otherwise. -/
def gtestResultDecl (line : List Char) : Option (String × TestStatus) :=
  let l := stripChars line
  match gtestRunLine l with
  | some _ => none
  | none =>
    match gtestOkLine l with
    | some n => some (n, .PASSED)
    | none =>
      match gtestFailedLine l with
      | some n => if allDigits n then none else some (n, .FAILED)
      | none =>
        match gtestSkipLine l with
        | some n => some (n, .SKIPPED)
        | none => none

/-- gtestResultNames lists the names declared by per-test result lines. -/
def gtestResultNames (lines : List (List Char)) : List String :=
  lines.filterMap (fun l => (gtestResultDecl l).map Prod.fst)

/-- gtestLastDecl gives the status declared by the last per-test result
line bearing the given name: a declaration in the tail of the line list
takes precedence over one in the head line. -/
def gtestLastDecl (lines : List (List Char)) (name : String) : Option TestStatus :=
  match lines with
  | [] => none
  | l :: rest =>
    match gtestLastDecl rest name with
    | some s => some s
    | none =>
      match gtestResultDecl l with
      | some p => if p.1 = name then some p.2 else none
      | none => none

/-- gtestMapFold is the map component of `parse_log_gtest`'s per-line loop,
expressed through the per-line declarations: each result line overwrites or
appends its name's entry, every other line leaves the map unchanged. -/
def gtestMapFold (lines : List (List Char)) (m : ClassMap) : ClassMap :=
  lines.foldl (fun acc l =>
    match gtestResultDecl l with
    | some p => dinsert acc p.1 p.2
    | none => acc) m

/-! ### Decimal rendering: synthesized identifiers are pairwise distinct -/

theorem digitsToNat_append_one (xs : List Char) (c : Char) :
    digitsToNat (xs ++ [c]) = 10 * digitsToNat xs + (c.toNat - 48) := by
  simp [digitsToNat, List.foldl_append]

theorem digitChar_val {m : Nat} (h : m < 10) :
    (Nat.digitChar m).toNat - 48 = m := by
  interval_cases m <;> decide

theorem toDigitsCore_append (n : Nat) : ∀ fuel ds, n < fuel →
    Nat.toDigitsCore 10 fuel n ds = Nat.toDigits 10 n ++ ds := by
  induction n using Nat.strong_induction_on with
  | _ n ih =>
    intro fuel ds h
    match fuel with
    | 0 => omega
    | fuel + 1 =>
      by_cases hz : n / 10 = 0
      · simp [Nat.toDigitsCore, Nat.toDigits, hz]
      · have hpos : 0 < n := by
          rcases Nat.eq_zero_or_pos n with h0 | h0
          · subst h0; simp at hz
          · exact h0
        have hlt : n / 10 < n := Nat.div_lt_self hpos (by omega)
        have hfuel : n / 10 < fuel := by omega
        calc Nat.toDigitsCore 10 (fuel + 1) n ds
            = Nat.toDigitsCore 10 fuel (n / 10) (Nat.digitChar (n % 10) :: ds) := by
              simp [Nat.toDigitsCore, hz]
          _ = Nat.toDigits 10 (n / 10) ++ (Nat.digitChar (n % 10) :: ds) :=
              ih (n / 10) hlt fuel _ hfuel
          _ = (Nat.toDigits 10 (n / 10) ++ [Nat.digitChar (n % 10)]) ++ ds := by
              simp
          _ = Nat.toDigits 10 n ++ ds := by
              have : Nat.toDigits 10 n
                  = Nat.toDigits 10 (n / 10) ++ [Nat.digitChar (n % 10)] := by
                have hn : Nat.toDigits 10 n
                    = Nat.toDigitsCore 10 n (n / 10) [Nat.digitChar (n % 10)] := by
                  simp [Nat.toDigits, Nat.toDigitsCore, hz]
                rw [hn, ih (n / 10) hlt n _ hlt]
              rw [this]

theorem digitsToNat_toDigits (n : Nat) : digitsToNat (Nat.toDigits 10 n) = n := by
  induction n using Nat.strong_induction_on with
  | _ n ih =>
    by_cases hz : n / 10 = 0
    · have h10 : n < 10 := by
        by_contra hge
        have hge' : 10 ≤ n := by omega
        have : 1 ≤ n / 10 := (Nat.one_le_div_iff (by omega)).mpr hge'
        omega
      have hne : Nat.toDigits 10 n = [Nat.digitChar (n % 10)] := by
        simp [Nat.toDigits, Nat.toDigitsCore, hz]
      rw [hne]
      have : n % 10 = n := Nat.mod_eq_of_lt h10
      simp [digitsToNat, this, digitChar_val h10]
    · have hpos : 0 < n := by
        rcases Nat.eq_zero_or_pos n with h0 | h0
        · subst h0; simp at hz
        · exact h0
      have hlt : n / 10 < n := Nat.div_lt_self hpos (by omega)
      have hform : Nat.toDigits 10 n
          = Nat.toDigits 10 (n / 10) ++ [Nat.digitChar (n % 10)] := by
        have hn : Nat.toDigits 10 n
            = Nat.toDigitsCore 10 n (n / 10) [Nat.digitChar (n % 10)] := by
          simp [Nat.toDigits, Nat.toDigitsCore, hz]
        rw [hn, toDigitsCore_append (n / 10) n _ hlt]
      rw [hform, digitsToNat_append_one, ih (n / 10) hlt,
        digitChar_val (Nat.mod_lt n (by omega))]
      omega

theorem natRepr_inj {m n : Nat} (h : Nat.repr m = Nat.repr n) : m = n := by
  have hd : Nat.toDigits 10 m = Nat.toDigits 10 n := by
    have hdata := congrArg String.data h
    simpa [Nat.repr, List.asString] using hdata
  have := congrArg digitsToNat hd
  simpa [digitsToNat_toDigits] using this

theorem tag_repr_inj (tag : String) {a b : Nat}
    (h : tag ++ Nat.repr a = tag ++ Nat.repr b) : a = b := by
  apply natRepr_inj
  have hdata := congrArg String.data h
  simp only [String.data_append, List.append_right_inj] at hdata
  exact String.ext hdata

theorem synthNames_nodup (tag : String) (n : Nat) (f : Nat → Nat)
    (hf : ∀ i j, f i = f j → i = j) : (synthNames tag n f).Nodup := by
  unfold synthNames
  exact List.Nodup.map (fun i j hij => hf i j (tag_repr_inj tag hij))
    (List.nodup_range n)

/-! ### Association-map lemmas -/

theorem any_key_iff (m : ClassMap) (k : String) :
    (m.any (fun p => decide (p.1 = k))) = true ↔ k ∈ dkeys m := by
  simp [dkeys, List.any_eq_true, List.mem_map]

theorem dinsert_of_not_mem {m : ClassMap} {k : String} (h : k ∉ dkeys m) (v : TestStatus) :
    dinsert m k v = m ++ [(k, v)] := by
  unfold dinsert
  rw [if_neg]
  intro hc
  exact h ((any_key_iff m k).1 hc)

theorem dkeys_overwrite (m : ClassMap) (k : String) (v : TestStatus) :
    dkeys (m.map (fun p => if p.1 = k then (k, v) else p)) = dkeys m := by
  induction m with
  | nil => rfl
  | cons p rest ih =>
    by_cases h : p.1 = k
    · simp [dkeys, h] at ih ⊢
      exact ih
    · simp [dkeys, h] at ih ⊢
      exact ih

theorem mem_dkeys_dinsert {m : ClassMap} {k k' : String} {v : TestStatus} :
    k' ∈ dkeys (dinsert m k v) ↔ k' ∈ dkeys m ∨ k' = k := by
  unfold dinsert
  by_cases hm : (m.any (fun p => decide (p.1 = k))) = true
  · rw [if_pos hm, dkeys_overwrite]
    have hk : k ∈ dkeys m := (any_key_iff m k).1 hm
    constructor
    · intro h; exact Or.inl h
    · rintro (h | rfl)
      · exact h
      · exact hk
  · rw [if_neg hm]
    simp [dkeys]

theorem nodup_dkeys_dinsert {m : ClassMap} {k : String} {v : TestStatus}
    (h : (dkeys m).Nodup) : (dkeys (dinsert m k v)).Nodup := by
  unfold dinsert
  by_cases hm : (m.any (fun p => decide (p.1 = k))) = true
  · rw [if_pos hm, dkeys_overwrite]; exact h
  · rw [if_neg hm]
    have hk : k ∉ dkeys m := fun hc => hm ((any_key_iff m k).2 hc)
    have : dkeys (m ++ [(k, v)]) = dkeys m ++ [k] := by simp [dkeys]
    rw [this]
    refine List.Nodup.append h (List.nodup_singleton k) ?_
    intro x hx hx'
    rw [List.mem_singleton] at hx'
    subst hx'
    exact hk hx

theorem dlookup_append_not_mem {m m' : ClassMap} {k : String}
    (h : k ∉ dkeys m) : dlookup (m ++ m') k = dlookup m' k := by
  induction m with
  | nil => rfl
  | cons p rest ih =>
    rw [show dkeys (p :: rest) = p.1 :: dkeys rest from rfl] at h
    have h1 : ¬ (p.1 = k) := fun hc => h (List.mem_cons.mpr (Or.inl hc.symm))
    have h2 : k ∉ dkeys rest := fun hc => h (List.mem_cons.mpr (Or.inr hc))
    simp [dlookup, h1]
    exact ih h2

theorem dlookup_overwrite_self {m : ClassMap} {k : String} (v : TestStatus)
    (h : k ∈ dkeys m) :
    dlookup (m.map (fun p => if p.1 = k then (k, v) else p)) k = some v := by
  induction m with
  | nil => simp [dkeys] at h
  | cons p rest ih =>
    by_cases hp : p.1 = k
    · simp [dlookup, hp]
    · rw [show dkeys (p :: rest) = p.1 :: dkeys rest from rfl] at h
      have hk : k ∈ dkeys rest := by
        rcases List.mem_cons.mp h with hc | hc
        · exact absurd hc.symm hp
        · exact hc
      simp [dlookup, hp]
      exact ih hk

theorem dlookup_dinsert_self (m : ClassMap) (k : String) (v : TestStatus) :
    dlookup (dinsert m k v) k = some v := by
  unfold dinsert
  by_cases hm : (m.any (fun p => decide (p.1 = k))) = true
  · rw [if_pos hm]
    exact dlookup_overwrite_self v ((any_key_iff m k).1 hm)
  · rw [if_neg hm]
    have hk : k ∉ dkeys m := fun hc => hm ((any_key_iff m k).2 hc)
    rw [dlookup_append_not_mem hk]
    simp [dlookup]

theorem dlookup_overwrite_ne {m : ClassMap} {k k' : String} (v : TestStatus)
    (h : k' ≠ k) :
    dlookup (m.map (fun p => if p.1 = k then (k, v) else p)) k' = dlookup m k' := by
  induction m with
  | nil => rfl
  | cons p rest ih =>
    by_cases hp : p.1 = k
    · have h1 : ¬ (k = k') := fun hc => h hc.symm
      have h2 : ¬ (p.1 = k') := by rw [hp]; exact h1
      simp [dlookup, hp, h1, h2]
      exact ih
    · simp [dlookup, hp]
      by_cases hp' : p.1 = k'
      · simp [hp']
      · simp [hp']
        exact ih

theorem dlookup_append_single_ne {m : ClassMap} {k k' : String} (v : TestStatus)
    (h : k' ≠ k) : dlookup (m ++ [(k, v)]) k' = dlookup m k' := by
  induction m with
  | nil =>
    have : ¬ (k = k') := fun hc => h hc.symm
    simp [dlookup, this]
  | cons p rest ih =>
    by_cases hp : p.1 = k'
    · simp [dlookup, hp]
    · simp [dlookup, hp]
      exact ih

theorem dlookup_dinsert_ne {m : ClassMap} {k k' : String} (v : TestStatus)
    (h : k' ≠ k) : dlookup (dinsert m k v) k' = dlookup m k' := by
  unfold dinsert
  by_cases hm : (m.any (fun p => decide (p.1 = k))) = true
  · rw [if_pos hm]
    exact dlookup_overwrite_ne v h
  · rw [if_neg hm]
    exact dlookup_append_single_ne v h

theorem dkeys_append (a b : ClassMap) : dkeys (a ++ b) = dkeys a ++ dkeys b := by
  simp [dkeys]

theorem dkeys_map_keys (ks : List String) (st : TestStatus) :
    dkeys (ks.map (fun k => (k, st))) = ks := by
  induction ks with
  | nil => rfl
  | cons k rest ih => simp [dkeys] at ih ⊢; exact ih

/-- tagPairNe: two tags sharing a proper common start and then differing at
one character give disjoint key families whatever is appended. -/
theorem tagPairNe {t1 t2 : String} (pre : List Char) {c1 c2 : Char}
    {r1 r2 : List Char} (h1 : t1.data = pre ++ c1 :: r1)
    (h2 : t2.data = pre ++ c2 :: r2) (hne : c1 ≠ c2) (a b : String) :
    t1 ++ a ≠ t2 ++ b := by
  intro h
  have hd := congrArg String.data h
  simp only [String.data_append, h1, h2, List.append_assoc, List.cons_append,
    List.append_right_inj, List.cons.injEq] at hd
  exact hne hd.1

theorem synthNames_disjoint {t1 t2 : String}
    (hne : ∀ a b : String, t1 ++ a ≠ t2 ++ b) (n1 n2 : Nat) (f1 f2 : Nat → Nat) :
    ∀ k ∈ synthNames t2 n2 f2, k ∉ synthNames t1 n1 f1 := by
  intro k hk hk'
  unfold synthNames at hk hk'
  simp only [List.mem_map, List.mem_range] at hk hk'
  rcases hk with ⟨i, _, rfl⟩
  rcases hk' with ⟨j, _, hj⟩
  exact hne (Nat.repr (f1 j)) (Nat.repr (f2 i)) hj

theorem insertKeys_fresh {m : ClassMap} {ks : List String} (st : TestStatus)
    (hn : ks.Nodup) (hf : ∀ k ∈ ks, k ∉ dkeys m) :
    insertKeys m ks st = m ++ ks.map (fun k => (k, st)) := by
  induction ks generalizing m with
  | nil => simp [insertKeys]
  | cons k rest ih =>
    have hk : k ∉ dkeys m := hf k (List.mem_cons_self k rest)
    have step : insertKeys m (k :: rest) st = insertKeys (m ++ [(k, st)]) rest st := by
      simp [insertKeys, dinsert_of_not_mem hk]
    rw [step, ih (List.Nodup.of_cons hn) ?_]
    · simp
    · intro k' hk'
      rw [dkeys_append]
      intro hc
      rcases List.mem_append.mp hc with hc | hc
      · exact hf k' (List.mem_cons_of_mem k hk') hc
      · have : k' = k := by
          simpa [dkeys] using hc
        rw [List.nodup_cons] at hn
        exact hn.1 (this ▸ hk')

theorem countStatus_total (m : ClassMap) :
    countStatus m .PASSED + countStatus m .FAILED + countStatus m .SKIPPED
      = m.length := by
  induction m with
  | nil => rfl
  | cons p rest ih =>
    cases hp : p.2 <;> simp [countStatus, List.filter_cons, hp] at ih ⊢ <;> omega

theorem countStatus_append (a b : ClassMap) (st : TestStatus) :
    countStatus (a ++ b) st = countStatus a st + countStatus b st := by
  simp [countStatus, List.filter_append]

theorem countStatus_map_same (ks : List String) (st : TestStatus) :
    countStatus (ks.map (fun k => (k, st))) st = ks.length := by
  induction ks with
  | nil => rfl
  | cons k rest ih => simp [countStatus, List.filter_cons] at ih ⊢; omega

theorem countStatus_map_ne (ks : List String) {st st' : TestStatus} (h : st ≠ st') :
    countStatus (ks.map (fun k => (k, st))) st' = 0 := by
  induction ks with
  | nil => rfl
  | cons k rest ih => simp [countStatus, List.filter_cons, h]

/-! ### Selector lemmas -/

theorem mem_dkeys_dupdate {r : ClassMap} : ∀ {a : ClassMap} {k : String},
    k ∈ dkeys (dupdate a r) ↔ k ∈ dkeys a ∨ k ∈ dkeys r := by
  induction r with
  | nil =>
    intro a k
    simp [dupdate, dkeys]
  | cons p rest ih =>
    intro a k
    have step : dupdate a (p :: rest) = dupdate (dinsert a p.1 p.2) rest := rfl
    rw [step, ih, mem_dkeys_dinsert]
    rw [show dkeys (p :: rest) = p.1 :: dkeys rest from rfl]
    simp [List.mem_cons]
    tauto

theorem nodup_dkeys_dupdate {r : ClassMap} : ∀ {a : ClassMap},
    (dkeys a).Nodup → (dkeys (dupdate a r)).Nodup := by
  induction r with
  | nil => intro a h; exact h
  | cons p rest ih =>
    intro a h
    exact ih (nodup_dkeys_dinsert h)

theorem dupdate_ne_nil {a r : ClassMap} (h : r ≠ []) : dupdate a r ≠ [] := by
  intro hc
  match r, h with
  | p :: rest, _ =>
    have : p.1 ∈ dkeys (dupdate a (p :: rest)) := by
      rw [mem_dkeys_dupdate]
      exact Or.inr (List.mem_cons_self _ _)
    rw [hc] at this
    simp [dkeys] at this

theorem tryStep_cases (reg : List (String × Parser)) (log : String)
    (acc : ClassMap × List String) (n : String) :
    tryStep reg log acc n = acc ∨
    ∃ f r, alookup reg n = some f ∧ f log = some r ∧ ¬ r.isEmpty ∧
      tryStep reg log acc n = (dupdate acc.1 r, acc.2 ++ [n]) := by
  unfold tryStep
  split
  · exact Or.inl rfl
  next f hf =>
    split
    · exact Or.inl rfl
    next r hr =>
      split
      · exact Or.inl rfl
      next hne =>
        exact Or.inr ⟨f, r, hf, hr, hne, rfl⟩

theorem tryStep_success (reg : List (String × Parser)) (log : String)
    (acc : ClassMap × List String) {n0 : String} {f0 : Parser} {r0 : ClassMap}
    (hl : alookup reg n0 = some f0) (hf : f0 log = some r0) (hne : ¬ r0.isEmpty) :
    tryStep reg log acc n0 = (dupdate acc.1 r0, acc.2 ++ [n0]) := by
  unfold tryStep
  split
  next heq => rw [hl] at heq; cases heq
  next f heq =>
    rw [hl] at heq
    injection heq with heq
    subst heq
    split
    next heq2 => rw [hf] at heq2; cases heq2
    next r heq2 =>
      rw [hf] at heq2
      injection heq2 with heq2
      subst heq2
      rw [if_neg hne]

theorem tryStep_raising (reg : List (String × Parser)) (log : String)
    (acc : ClassMap × List String) {n0 : String} {f0 : Parser}
    (hl : alookup reg n0 = some f0) (hf : f0 log = none) :
    tryStep reg log acc n0 = acc := by
  unfold tryStep
  split
  · rfl
  next f heq =>
    rw [hl] at heq
    injection heq with heq
    subst heq
    split
    · rfl
    next r heq2 => rw [hf] at heq2; cases heq2

theorem tryStep_used_pres (reg : List (String × Parser)) (log : String)
    (acc : ClassMap × List String) (m n : String) (h : n ∈ acc.2) :
    n ∈ (tryStep reg log acc m).2 := by
  rcases tryStep_cases reg log acc m with he | ⟨f, r, _, _, _, he⟩
  · rw [he]; exact h
  · rw [he]; exact List.mem_append.mpr (Or.inl h)

theorem tryStep_keys_pres (reg : List (String × Parser)) (log : String)
    (acc : ClassMap × List String) (m k : String) (h : k ∈ dkeys acc.1) :
    k ∈ dkeys (tryStep reg log acc m).1 := by
  rcases tryStep_cases reg log acc m with he | ⟨f, r, _, _, _, he⟩
  · rw [he]; exact h
  · rw [he]; exact mem_dkeys_dupdate.mpr (Or.inl h)

theorem tryFold_used_pres (reg : List (String × Parser)) (log : String) :
    ∀ (ns : List String) (acc : ClassMap × List String) (n : String),
    n ∈ acc.2 → n ∈ (tryFold reg log ns acc).2 := by
  intro ns
  induction ns with
  | nil => intro acc n h; exact h
  | cons m rest ih =>
    intro acc n h
    exact ih _ n (tryStep_used_pres reg log acc m n h)

theorem tryFold_keys_mono (reg : List (String × Parser)) (log : String) :
    ∀ (ns : List String) (acc : ClassMap × List String) (k : String),
    k ∈ dkeys acc.1 → k ∈ dkeys (tryFold reg log ns acc).1 := by
  intro ns
  induction ns with
  | nil => intro acc k h; exact h
  | cons m rest ih =>
    intro acc k h
    exact ih _ k (tryStep_keys_pres reg log acc m k h)

theorem tryFold_used_mem (reg : List (String × Parser)) (log : String) :
    ∀ (ns : List String) (acc : ClassMap × List String) (n : String),
    n ∈ (tryFold reg log ns acc).2 → n ∈ acc.2 ∨ n ∈ ns := by
  intro ns
  induction ns with
  | nil => intro acc n h; exact Or.inl h
  | cons m rest ih =>
    intro acc n h
    rcases ih _ n h with hin | hin
    · rcases tryStep_cases reg log acc m with he | ⟨f, r, _, _, _, he⟩
      · rw [he] at hin
        exact Or.inl hin
      · rw [he] at hin
        rcases List.mem_append.mp hin with hin | hin
        · exact Or.inl hin
        · rw [List.mem_singleton] at hin
          exact Or.inr (hin ▸ List.mem_cons_self m rest)
    · exact Or.inr (List.mem_cons_of_mem m hin)

theorem tryFold_success (reg : List (String × Parser)) (log : String)
    {n0 : String} {f0 : Parser} {r0 : ClassMap}
    (hl : alookup reg n0 = some f0) (hf : f0 log = some r0) (hne : ¬ r0.isEmpty) :
    ∀ (ns : List String) (acc : ClassMap × List String), n0 ∈ ns →
      n0 ∈ (tryFold reg log ns acc).2 ∧
      ∀ k ∈ dkeys r0, k ∈ dkeys (tryFold reg log ns acc).1 := by
  intro ns
  induction ns with
  | nil => intro acc h; exact absurd h (List.not_mem_nil n0)
  | cons m rest ih =>
    intro acc hmem
    by_cases hm : m = n0
    · subst hm
      have hstep := tryStep_success reg log acc hl hf hne
      have h1 : tryFold reg log (m :: rest) acc
          = tryFold reg log rest (dupdate acc.1 r0, acc.2 ++ [m]) := by
        unfold tryFold
        rw [List.foldl_cons, hstep]
      rw [h1]
      constructor
      · exact tryFold_used_pres reg log rest _ m
          (List.mem_append.mpr (Or.inr (List.mem_singleton.mpr rfl)))
      · intro k hk
        exact tryFold_keys_mono reg log rest _ k (mem_dkeys_dupdate.mpr (Or.inr hk))
    · have hrest : n0 ∈ rest := by
        rcases List.mem_cons.mp hmem with h | h
        · exact absurd h.symm hm
        · exact h
      exact ih _ hrest

theorem tryFold_provenance (reg : List (String × Parser)) (log : String) :
    ∀ (ns : List String) (acc : ClassMap × List String) (k : String),
    k ∈ dkeys (tryFold reg log ns acc).1 →
      k ∈ dkeys acc.1 ∨
      ∃ n, n ∈ (tryFold reg log ns acc).2 ∧
        ∃ f r, alookup reg n = some f ∧ f log = some r ∧ k ∈ dkeys r := by
  intro ns
  induction ns with
  | nil => intro acc k h; exact Or.inl h
  | cons m rest ih =>
    intro acc k h
    rcases ih _ k h with hin | ⟨n, hn, f, r, h1, h2, h3⟩
    · rcases tryStep_cases reg log acc m with he | ⟨f, r, hl, hf, hne, he⟩
      · rw [he] at hin
        exact Or.inl hin
      · rw [he] at hin
        rcases mem_dkeys_dupdate.mp hin with ha | hr0
        · exact Or.inl ha
        · refine Or.inr ⟨m, ?_, f, r, hl, hf, hr0⟩
          have : m ∈ (tryStep reg log acc m).2 := by
            rw [he]
            exact List.mem_append.mpr (Or.inr (List.mem_singleton.mpr rfl))
          exact tryFold_used_pres reg log rest _ m this
    · exact Or.inr ⟨n, hn, f, r, h1, h2, h3⟩

theorem tryFold_nodup (reg : List (String × Parser)) (log : String) :
    ∀ (ns : List String) (acc : ClassMap × List String),
    (dkeys acc.1).Nodup → (dkeys (tryFold reg log ns acc).1).Nodup := by
  intro ns
  induction ns with
  | nil => intro acc h; exact h
  | cons m rest ih =>
    intro acc h
    refine ih _ ?_
    rcases tryStep_cases reg log acc m with he | ⟨f, r, _, _, _, he⟩
    · rw [he]; exact h
    · rw [he]; exact nodup_dkeys_dupdate h

theorem tryFold_skip_raising (reg : List (String × Parser)) (log : String)
    {n0 : String} {f0 : Parser} (hl : alookup reg n0 = some f0)
    (hf : f0 log = none) :
    ∀ (ns : List String) (acc : ClassMap × List String),
    tryFold reg log ns acc
      = tryFold reg log (ns.filter (fun x => decide (x ≠ n0))) acc := by
  intro ns
  induction ns with
  | nil => intro acc; rfl
  | cons m rest ih =>
    intro acc
    by_cases hm : m = n0
    · subst hm
      have hstep := tryStep_raising reg log acc hl hf
      have h1 : tryFold reg log (m :: rest) acc = tryFold reg log rest acc := by
        unfold tryFold
        rw [List.foldl_cons, hstep]
      rw [h1, List.filter_cons, if_neg (by simp)]
      exact ih acc
    · rw [List.filter_cons, if_pos (by simp [hm])]
      have h1 : tryFold reg log (m :: rest) acc
          = tryFold reg log rest (tryStep reg log acc m) := rfl
      have h2 : tryFold reg log (m :: List.filter (fun x => decide (x ≠ n0)) rest) acc
          = tryFold reg log (List.filter (fun x => decide (x ≠ n0)) rest)
              (tryStep reg log acc m) := rfl
      rw [h1, h2]
      exact ih _

theorem alookup_mem_keys {α : Type} {l : List (String × α)} {n : String} {f : α}
    (h : alookup l n = some f) : n ∈ l.map Prod.fst := by
  induction l with
  | nil => cases h
  | cons p rest ih =>
    unfold alookup at h
    by_cases hp : p.1 = n
    · exact List.mem_cons.mpr (Or.inl hp.symm)
    · rw [if_neg hp] at h
      exact List.mem_cons_of_mem _ (ih h)

theorem PARSERS_names (mp : MissingParsers) :
    (PARSERS mp).map Prod.fst = PARSER_NAMES := rfl

theorem not_isEmpty_of_mem_dkeys {m : ClassMap} {k : String}
    (h : k ∈ dkeys m) : ¬ m.isEmpty := by
  cases m with
  | nil => simp [dkeys] at h
  | cons p rest => simp

theorem try_parsers_of_nonempty {reg : List (String × Parser)} {log : String}
    {ns : List String} (h : ¬ (tryFold reg log ns ([], [])).1.isEmpty) :
    try_parsers reg log ns = some (tryFold reg log ns ([], [])) := by
  unfold try_parsers
  rw [if_neg h]

theorem try_parsers_some_elim {reg : List (String × Parser)} {log : String}
    {ns : List String} {p : ClassMap × List String}
    (h : try_parsers reg log ns = some p) :
    tryFold reg log ns ([], []) = p ∧ ¬ p.1.isEmpty := by
  unfold try_parsers at h
  by_cases hne : (tryFold reg log ns ([], [])).1.isEmpty
  · rw [if_pos hne] at h
    cases h
  · rw [if_neg hne] at h
    injection h with h
    exact ⟨h, h ▸ hne⟩

theorem selectCandidates_empty {fw lang : String} (hfw : fw ∉ PARSER_NAMES)
    (hlang : alookup LANGUAGE_FRAMEWORKS lang = none) :
    selectCandidates fw lang = [] := by
  unfold selectCandidates
  rw [hlang]
  rw [if_neg]
  intro hc
  exact hfw (by simpa using hc.2)

theorem synthNames_length (tag : String) (n : Nat) (f : Nat → Nat) :
    (synthNames tag n f).length = n := by
  simp [synthNames]

theorem insertKeys_three (ks1 ks2 ks3 : List String) (s1 s2 s3 : TestStatus)
    (h1 : ks1.Nodup) (h2 : ks2.Nodup) (h3 : ks3.Nodup)
    (d12 : ∀ k ∈ ks2, k ∉ ks1) (d13 : ∀ k ∈ ks3, k ∉ ks1)
    (d23 : ∀ k ∈ ks3, k ∉ ks2) :
    insertKeys (insertKeys (insertKeys [] ks1 s1) ks2 s2) ks3 s3
      = ks1.map (fun k => (k, s1)) ++ ks2.map (fun k => (k, s2)) ++
        ks3.map (fun k => (k, s3)) := by
  have step1 : insertKeys [] ks1 s1 = ks1.map (fun k => (k, s1)) := by
    rw [insertKeys_fresh s1 h1 (by intro k _; simp [dkeys])]
    simp
  have step2 : insertKeys (ks1.map (fun k => (k, s1))) ks2 s2
      = ks1.map (fun k => (k, s1)) ++ ks2.map (fun k => (k, s2)) := by
    refine insertKeys_fresh s2 h2 ?_
    intro k hk
    rw [dkeys_map_keys]
    exact d12 k hk
  have step3 : insertKeys (ks1.map (fun k => (k, s1)) ++ ks2.map (fun k => (k, s2)))
      ks3 s3 = ks1.map (fun k => (k, s1)) ++ ks2.map (fun k => (k, s2)) ++
        ks3.map (fun k => (k, s3)) := by
    refine insertKeys_fresh s3 h3 ?_
    intro k hk
    rw [dkeys_append, dkeys_map_keys, dkeys_map_keys]
    intro hc
    rcases List.mem_append.mp hc with hc | hc
    · exact d13 k hk hc
    · exact d23 k hk hc
  rw [step1, step2, step3]

theorem family_facts (ks1 ks2 ks3 : List String) :
    countStatus (ks1.map (fun k => (k, TestStatus.PASSED)) ++
      ks2.map (fun k => (k, TestStatus.FAILED)) ++
      ks3.map (fun k => (k, TestStatus.SKIPPED))) .PASSED = ks1.length ∧
    countStatus (ks1.map (fun k => (k, TestStatus.PASSED)) ++
      ks2.map (fun k => (k, TestStatus.FAILED)) ++
      ks3.map (fun k => (k, TestStatus.SKIPPED))) .FAILED = ks2.length ∧
    countStatus (ks1.map (fun k => (k, TestStatus.PASSED)) ++
      ks2.map (fun k => (k, TestStatus.FAILED)) ++
      ks3.map (fun k => (k, TestStatus.SKIPPED))) .SKIPPED = ks3.length ∧
    (ks1.map (fun k => (k, TestStatus.PASSED)) ++
      ks2.map (fun k => (k, TestStatus.FAILED)) ++
      ks3.map (fun k => (k, TestStatus.SKIPPED))).length
      = ks1.length + ks2.length + ks3.length ∧
    dkeys (ks1.map (fun k => (k, TestStatus.PASSED)) ++
      ks2.map (fun k => (k, TestStatus.FAILED)) ++
      ks3.map (fun k => (k, TestStatus.SKIPPED))) = ks1 ++ ks2 ++ ks3 := by
  refine ⟨?_, ?_, ?_, ?_, ?_⟩
  · rw [countStatus_append, countStatus_append, countStatus_map_same,
      countStatus_map_ne ks2 (by decide), countStatus_map_ne ks3 (by decide)]
    omega
  · rw [countStatus_append, countStatus_append, countStatus_map_same,
      countStatus_map_ne ks1 (by decide), countStatus_map_ne ks3 (by decide)]
    omega
  · rw [countStatus_append, countStatus_append, countStatus_map_same,
      countStatus_map_ne ks1 (by decide), countStatus_map_ne ks2 (by decide)]
    omega
  · simp
    omega
  · rw [dkeys_append, dkeys_append, dkeys_map_keys, dkeys_map_keys, dkeys_map_keys]

theorem nodup_three {ks1 ks2 ks3 : List String}
    (h1 : ks1.Nodup) (h2 : ks2.Nodup) (h3 : ks3.Nodup)
    (d12 : ∀ k ∈ ks2, k ∉ ks1) (d13 : ∀ k ∈ ks3, k ∉ ks1)
    (d23 : ∀ k ∈ ks3, k ∉ ks2) : (ks1 ++ ks2 ++ ks3).Nodup := by
  refine List.Nodup.append (List.Nodup.append h1 h2 ?_) h3 ?_
  · intro x hx hx'
    exact d12 x hx' hx
  · intro x hx hx'
    rcases List.mem_append.mp hx with hx | hx
    · exact d13 x hx' hx
    · exact d23 x hx' hx

theorem countStatus_nil (st : TestStatus) : countStatus [] st = 0 := rfl

theorem insertKeys_two (ks1 ks2 : List String) (s1 s2 : TestStatus)
    (h1 : ks1.Nodup) (h2 : ks2.Nodup) (d12 : ∀ k ∈ ks2, k ∉ ks1) :
    insertKeys (insertKeys [] ks1 s1) ks2 s2
      = ks1.map (fun k => (k, s1)) ++ ks2.map (fun k => (k, s2)) := by
  have step1 : insertKeys [] ks1 s1 = ks1.map (fun k => (k, s1)) := by
    rw [insertKeys_fresh s1 h1 (by intro k _; simp [dkeys])]
    simp
  rw [step1]
  refine insertKeys_fresh s2 h2 ?_
  intro k hk
  rw [dkeys_map_keys]
  exact d12 k hk

theorem family_facts2 (ks1 ks2 : List String) :
    countStatus (ks1.map (fun k => (k, TestStatus.PASSED)) ++
      ks2.map (fun k => (k, TestStatus.FAILED))) .PASSED = ks1.length ∧
    countStatus (ks1.map (fun k => (k, TestStatus.PASSED)) ++
      ks2.map (fun k => (k, TestStatus.FAILED))) .FAILED = ks2.length ∧
    countStatus (ks1.map (fun k => (k, TestStatus.PASSED)) ++
      ks2.map (fun k => (k, TestStatus.FAILED))) .SKIPPED = 0 ∧
    (ks1.map (fun k => (k, TestStatus.PASSED)) ++
      ks2.map (fun k => (k, TestStatus.FAILED))).length
      = ks1.length + ks2.length ∧
    dkeys (ks1.map (fun k => (k, TestStatus.PASSED)) ++
      ks2.map (fun k => (k, TestStatus.FAILED))) = ks1 ++ ks2 := by
  refine ⟨?_, ?_, ?_, ?_, ?_⟩
  · rw [countStatus_append, countStatus_map_same,
      countStatus_map_ne ks2 (by decide)]
    omega
  · rw [countStatus_append, countStatus_map_same,
      countStatus_map_ne ks1 (by decide)]
    omega
  · rw [countStatus_append, countStatus_map_ne ks1 (by decide),
      countStatus_map_ne ks2 (by decide)]
  · simp
  · rw [dkeys_append, dkeys_map_keys, dkeys_map_keys]

theorem nodup_two {ks1 ks2 : List String}
    (h1 : ks1.Nodup) (h2 : ks2.Nodup) (d12 : ∀ k ∈ ks2, k ∉ ks1) :
    (ks1 ++ ks2).Nodup := by
  refine List.Nodup.append h1 h2 ?_
  intro x hx hx'
  exact d12 x hx' hx

theorem jest_tags_tf (a b : String) :
    ("jest_test_" : String) ++ a ≠ ("jest_failed_test_" : String) ++ b :=
  tagPairNe ['j', 'e', 's', 't', '_'] rfl rfl (by decide) a b

theorem jest_tags_ts (a b : String) :
    ("jest_test_" : String) ++ a ≠ ("jest_skipped_test_" : String) ++ b :=
  tagPairNe ['j', 'e', 's', 't', '_'] rfl rfl (by decide) a b

theorem jest_tags_fs (a b : String) :
    ("jest_failed_test_" : String) ++ a ≠ ("jest_skipped_test_" : String) ++ b :=
  tagPairNe ['j', 'e', 's', 't', '_'] rfl rfl (by decide) a b

theorem ctest_tags_pf (a b : String) :
    ("synthetic_pass_" : String) ++ a ≠ ("synthetic_fail_" : String) ++ b :=
  tagPairNe ['s', 'y', 'n', 't', 'h', 'e', 't', 'i', 'c', '_'] rfl rfl (by decide) a b

theorem parse_test_output_fallback_eq {mp : MissingParsers} {log fw lang : String}
    (hsel : selectCandidates fw lang = []) :
    parse_test_output mp log fw lang = try_parsers (PARSERS mp) log PARSER_NAMES := by
  unfold parse_test_output
  rw [hsel]
  rfl

/-! ## The claims -/

/-- C2: for every log L and any two registered strategies A and B forming
the hint-selected candidate list, if A and B each produce non-empty maps
with disjoint key sets on L, the selector returns a merged map whose key
set is exactly the union of A's and B's key sets and records both strategy
names; concretely (scenario 3, for any instantiation of the parser modules
missing from this snapshot), the log interleaving
`✖ 1 problems (1 error, 0 warnings)` with `Tests: 10 passed, 10 total`
yields one lint entry FAILED plus ten synthesized PASSED test entries, with
the two strategy names recorded. -/
theorem C2_selector_merge :
    (∀ (reg : List (String × Parser)) (log : String) (na nb : String)
      (pa pb : Parser) (ra rb : ClassMap),
      alookup reg na = some pa → alookup reg nb = some pb →
      pa log = some ra → pb log = some rb → ra ≠ [] → rb ≠ [] →
      (∀ k, k ∈ dkeys ra → k ∉ dkeys rb) →
      ∃ m, try_parsers reg log [na, nb] = some (m, [na, nb]) ∧
        ∀ k, k ∈ dkeys m ↔ (k ∈ dkeys ra ∨ k ∈ dkeys rb)) ∧
    (∀ mp : MissingParsers,
      try_parsers (PARSERS mp)
          "✖ 1 problems (1 error, 0 warnings)\nTests: 10 passed, 10 total"
          ["eslint", "jest"] =
        some (("eslint_check", TestStatus.FAILED) ::
          (synthNames "jest_test_" 10 (· + 1)).map (fun k => (k, .PASSED)),
          ["eslint", "jest"])) := by
  constructor
  · intro reg log na nb pa pb ra rb hla hlb hra hrb hnea hneb _hdisj
    have hea : ¬ ra.isEmpty := by simpa [List.isEmpty_iff] using hnea
    have heb : ¬ rb.isEmpty := by simpa [List.isEmpty_iff] using hneb
    have s1 := tryStep_success reg log ([], []) hla hra hea
    have hfold : tryFold reg log [na, nb] ([], [])
        = (dupdate (dupdate [] ra) rb, [na, nb]) := by
      unfold tryFold
      rw [List.foldl_cons, s1]
      have s2 := tryStep_success reg log (dupdate ([] : ClassMap) ra, [] ++ [na])
        hlb hrb heb
      rw [List.foldl_cons, s2]
      simp
    have hne : dupdate (dupdate ([] : ClassMap) ra) rb ≠ [] := dupdate_ne_nil hneb
    have hnem : ¬ (tryFold reg log [na, nb] ([], [])).1.isEmpty := by
      rw [hfold]
      simpa [List.isEmpty_iff] using hne
    refine ⟨dupdate (dupdate [] ra) rb, ?_, ?_⟩
    · rw [try_parsers_of_nonempty hnem, hfold]
    · intro k
      rw [mem_dkeys_dupdate, mem_dkeys_dupdate]
      simp [dkeys]
  · intro mp
    have e1 : alookup (PARSERS mp) "eslint" = some (totalParser parse_log_eslint) := rfl
    have e2 : alookup (PARSERS mp) "jest" = some (totalParser parse_log_jest) := rfl
    have p1 : totalParser parse_log_eslint
        "✖ 1 problems (1 error, 0 warnings)\nTests: 10 passed, 10 total"
        = some [("eslint_check", TestStatus.FAILED)] := by decide
    have p2 : totalParser parse_log_jest
        "✖ 1 problems (1 error, 0 warnings)\nTests: 10 passed, 10 total"
        = some ((synthNames "jest_test_" 10 (· + 1)).map (fun k => (k, .PASSED))) := by
      decide
    have s1 := tryStep_success (PARSERS mp)
      "✖ 1 problems (1 error, 0 warnings)\nTests: 10 passed, 10 total"
      ([], []) e1 p1 (by decide)
    have s2 := tryStep_success (PARSERS mp)
      "✖ 1 problems (1 error, 0 warnings)\nTests: 10 passed, 10 total"
      (dupdate ([] : ClassMap) [("eslint_check", TestStatus.FAILED)], [] ++ ["eslint"])
      e2 p2 (by decide)
    have hfold : tryFold (PARSERS mp)
        "✖ 1 problems (1 error, 0 warnings)\nTests: 10 passed, 10 total"
        ["eslint", "jest"] ([], [])
        = (dupdate (dupdate ([] : ClassMap) [("eslint_check", TestStatus.FAILED)])
            ((synthNames "jest_test_" 10 (· + 1)).map (fun k => (k, .PASSED))),
          ([] ++ ["eslint"]) ++ ["jest"]) := by
      unfold tryFold
      rw [List.foldl_cons, s1, List.foldl_cons, s2]
      rfl
    have hmap : dupdate (dupdate ([] : ClassMap) [("eslint_check", TestStatus.FAILED)])
        ((synthNames "jest_test_" 10 (· + 1)).map (fun k => (k, .PASSED)))
        = ("eslint_check", TestStatus.FAILED) ::
          (synthNames "jest_test_" 10 (· + 1)).map (fun k => (k, .PASSED)) := by
      decide
    unfold try_parsers
    rw [hfold, hmap]
    rfl

/-- C2 witness: the general conjunct applied to the concrete scenario-3
inputs, every hypothesis discharged by evaluation. -/
theorem C2_selector_merge_witness :
    ∃ m, try_parsers (PARSERS defaultMissing)
        "✖ 1 problems (1 error, 0 warnings)\nTests: 10 passed, 10 total"
        ["eslint", "jest"] = some (m, ["eslint", "jest"]) ∧
      ∀ k, k ∈ dkeys m ↔
        (k ∈ dkeys (parse_log_eslint
          "✖ 1 problems (1 error, 0 warnings)\nTests: 10 passed, 10 total") ∨
         k ∈ dkeys (parse_log_jest
          "✖ 1 problems (1 error, 0 warnings)\nTests: 10 passed, 10 total")) :=
  C2_selector_merge.1 (PARSERS defaultMissing)
    "✖ 1 problems (1 error, 0 warnings)\nTests: 10 passed, 10 total"
    "eslint" "jest" _ _ _ _ rfl rfl rfl rfl (by decide) (by decide) (by decide)

/-- C5: for every classification result of `try_parsers`, the merged map is
non-empty, `strategyNamesUsed` is non-empty, every key of the map was
produced by a strategy named in it, every value is one of the three
statuses, the PASSED/FAILED/SKIPPED counts sum to the number of keys, and
the keys are distinct. -/
theorem C5_classification_invariants (reg : List (String × Parser))
    (log : String) (ns : List String) (m : ClassMap) (used : List String)
    (h : try_parsers reg log ns = some (m, used)) :
    m ≠ [] ∧ used ≠ [] ∧
    (∀ k, k ∈ dkeys m → ∃ n, n ∈ used ∧
      ∃ f r, alookup reg n = some f ∧ f log = some r ∧ k ∈ dkeys r) ∧
    (∀ p, p ∈ m → p.2 = .PASSED ∨ p.2 = .FAILED ∨ p.2 = .SKIPPED) ∧
    countStatus m .PASSED + countStatus m .FAILED + countStatus m .SKIPPED
      = (dkeys m).length ∧
    (dkeys m).Nodup := by
  obtain ⟨hfold, hne⟩ := try_parsers_some_elim h
  have hmne : m ≠ [] := by
    intro hc
    exact hne (by simp [hc])
  have hprov : ∀ k, k ∈ dkeys m → ∃ n, n ∈ used ∧
      ∃ f r, alookup reg n = some f ∧ f log = some r ∧ k ∈ dkeys r := by
    intro k hk
    have := tryFold_provenance reg log ns ([], []) k (by rw [hfold]; exact hk)
    rcases this with habs | ⟨n, hn, f, r, h1, h2, h3⟩
    · simp [dkeys] at habs
    · exact ⟨n, by rw [hfold] at hn; exact hn, f, r, h1, h2, h3⟩
  refine ⟨hmne, ?_, hprov, ?_, ?_, ?_⟩
  · intro hc
    obtain ⟨p, hp⟩ : ∃ p, p ∈ m := by
      cases m with
      | nil => exact absurd rfl hmne
      | cons a t => exact ⟨a, List.mem_cons_self a t⟩
    obtain ⟨n, hn, _⟩ := hprov p.1 (List.mem_map.mpr ⟨p, hp, rfl⟩)
    rw [hc] at hn
    exact List.not_mem_nil n hn
  · intro p _
    cases p.2 with
    | PASSED => exact Or.inl rfl
    | FAILED => exact Or.inr (Or.inl rfl)
    | SKIPPED => exact Or.inr (Or.inr rfl)
  · rw [show (dkeys m).length = m.length by simp [dkeys]]
    exact countStatus_total m
  · have := tryFold_nodup reg log ns ([], []) (by simp [dkeys])
    rw [hfold] at this
    exact this

/-- C5 witness: the invariants instantiated on concrete scenario-1 output. -/
theorem C5_classification_invariants_witness :
    [("testA", TestStatus.PASSED), ("testB", TestStatus.FAILED),
      ("testC", TestStatus.SKIPPED)] ≠ [] ∧ ["jest"] ≠ [] ∧
    (∀ k, k ∈ dkeys [("testA", TestStatus.PASSED), ("testB", TestStatus.FAILED),
        ("testC", TestStatus.SKIPPED)] → ∃ n, n ∈ ["jest"] ∧
      ∃ f r, alookup (PARSERS defaultMissing) n = some f ∧
        f "✓ testA\n✕ testB\n○ testC" = some r ∧ k ∈ dkeys r) ∧
    (∀ p, p ∈ [("testA", TestStatus.PASSED), ("testB", TestStatus.FAILED),
        ("testC", TestStatus.SKIPPED)] →
      p.2 = .PASSED ∨ p.2 = .FAILED ∨ p.2 = .SKIPPED) ∧
    countStatus [("testA", TestStatus.PASSED), ("testB", TestStatus.FAILED),
        ("testC", TestStatus.SKIPPED)] .PASSED +
      countStatus [("testA", TestStatus.PASSED), ("testB", TestStatus.FAILED),
        ("testC", TestStatus.SKIPPED)] .FAILED +
      countStatus [("testA", TestStatus.PASSED), ("testB", TestStatus.FAILED),
        ("testC", TestStatus.SKIPPED)] .SKIPPED
      = (dkeys [("testA", TestStatus.PASSED), ("testB", TestStatus.FAILED),
        ("testC", TestStatus.SKIPPED)]).length ∧
    (dkeys [("testA", TestStatus.PASSED), ("testB", TestStatus.FAILED),
      ("testC", TestStatus.SKIPPED)]).Nodup :=
  C5_classification_invariants (PARSERS defaultMissing) "✓ testA\n✕ testB\n○ testC"
    ["jest"] _ _ (by decide)

/-- C10: a registered strategy whose call raises on log L (modelled by the
parser returning `none`) is caught by the selector: the outcome is the one
obtained with that candidate removed from the list, and its name never
appears in `strategyNamesUsed`, so a single faulty strategy never prevents
the remaining candidates' results from being returned. -/
theorem C10_exception_isolation (reg : List (String × Parser)) (log : String)
    (ns : List String) (n0 : String) (f0 : Parser)
    (hl : alookup reg n0 = some f0) (hf : f0 log = none) :
    try_parsers reg log ns
      = try_parsers reg log (ns.filter (fun x => decide (x ≠ n0))) ∧
    ∀ m used, try_parsers reg log ns = some (m, used) → n0 ∉ used := by
  constructor
  · unfold try_parsers
    rw [tryFold_skip_raising reg log hl hf ns ([], [])]
  · intro m used h hmem
    obtain ⟨hfold, _⟩ := try_parsers_some_elim h
    rw [tryFold_skip_raising reg log hl hf ns ([], [])] at hfold
    have := tryFold_used_mem reg log (ns.filter (fun x => decide (x ≠ n0)))
      ([], []) n0 (by rw [hfold]; exact hmem)
    rcases this with habs | hmem'
    · exact List.not_mem_nil n0 habs
    · have := List.of_mem_filter hmem'
      simp at this

/-- C10 witness: a registry with a raising strategy followed by jest; the
raising strategy is skipped, jest's results are still returned, and the
raising strategy's name is excluded. -/
theorem C10_exception_isolation_witness :
    (try_parsers [("boom", (fun _ => none : Parser)),
        ("jest", totalParser parse_log_jest)] "✓ testA\n✕ testB\n○ testC"
        ["boom", "jest"]
      = try_parsers [("boom", (fun _ => none : Parser)),
        ("jest", totalParser parse_log_jest)] "✓ testA\n✕ testB\n○ testC"
        (["boom", "jest"].filter (fun x => decide (x ≠ "boom")))) ∧
    ∀ m used, try_parsers [("boom", (fun _ => none : Parser)),
        ("jest", totalParser parse_log_jest)] "✓ testA\n✕ testB\n○ testC"
        ["boom", "jest"] = some (m, used) → "boom" ∉ used :=
  C10_exception_isolation
    [("boom", (fun _ => none : Parser)), ("jest", totalParser parse_log_jest)]
    "✓ testA\n✕ testB\n○ testC" ["boom", "jest"] "boom" (fun _ => none) rfl rfl

/-- C4 counterexample: with every hint unregistered, jest — a registered
strategy — produces the non-empty map `{stylelint: FAILED}` on the log
`✕ stylelint`, the fallback sweep runs and records jest's name, yet the
returned map carries `stylelint ↦ PASSED` (the stylelint strategy, tried
later, overwrites the colliding key), so the result does not contain C's
entries as the claim demands.  The final value of the key is written by the
stylelint parser, which runs after every parser module missing from this
snapshot, so the refutation does not depend on how those are modelled. -/
theorem C4_fallback_counterexample :
    ("unknownfw" ∉ PARSER_NAMES) ∧
    alookup LANGUAGE_FRAMEWORKS "unknownlang" = none ∧
    "jest" ∈ PARSER_NAMES ∧
    ("stylelint", TestStatus.FAILED) ∈ parse_log_jest "✕ stylelint" ∧
    parse_test_output defaultMissing "✕ stylelint" "unknownfw" "unknownlang"
      = some ([("stylelint", TestStatus.PASSED)], ["jest", "stylelint"]) ∧
    ¬ ("stylelint", TestStatus.FAILED) ∈ [("stylelint", TestStatus.PASSED)] := by
  decide

/-- C4 amended: if the framework hint is unregistered and the language hint
has no table entry, and some registered strategy C produces a non-empty map
on L, the fallback sweep returns a result that records C's name and whose
key set includes every key of C's map; C's values survive except where a
later-tried strategy overwrites a colliding key. -/
theorem C4_fallback_amended (mp : MissingParsers) (log fw lang : String)
    (cn : String) (cf : Parser) (r : ClassMap)
    (hfw : fw ∉ PARSER_NAMES) (hlang : alookup LANGUAGE_FRAMEWORKS lang = none)
    (hreg : alookup (PARSERS mp) cn = some cf) (hcf : cf log = some r)
    (hr : r ≠ []) :
    ∃ m used, parse_test_output mp log fw lang = some (m, used) ∧
      cn ∈ used ∧ ∀ k ∈ dkeys r, k ∈ dkeys m := by
  have hsel : selectCandidates fw lang = [] := selectCandidates_empty hfw hlang
  have hcn : cn ∈ PARSER_NAMES := by
    have := alookup_mem_keys hreg
    rwa [PARSERS_names] at this
  have hne : ¬ r.isEmpty := by simpa [List.isEmpty_iff] using hr
  obtain ⟨hused, hkeys⟩ :=
    tryFold_success (PARSERS mp) log hreg hcf hne PARSER_NAMES ([], []) hcn
  obtain ⟨p, hp⟩ : ∃ p, p ∈ r := by
    cases r with
    | nil => exact absurd rfl hr
    | cons a t => exact ⟨a, List.mem_cons_self a t⟩
  have hkm := hkeys p.1 (List.mem_map.mpr ⟨p, hp, rfl⟩)
  have hmne : ¬ (tryFold (PARSERS mp) log PARSER_NAMES ([], [])).1.isEmpty :=
    not_isEmpty_of_mem_dkeys hkm
  refine ⟨(tryFold (PARSERS mp) log PARSER_NAMES ([], [])).1,
    (tryFold (PARSERS mp) log PARSER_NAMES ([], [])).2, ?_, hused, hkeys⟩
  rw [parse_test_output_fallback_eq hsel, try_parsers_of_nonempty hmne]

/-- C4 amended witness: the amended statement applied at the
counterexample's own inputs with C := jest. -/
theorem C4_fallback_amended_witness :
    ∃ m used, parse_test_output defaultMissing "✕ stylelint" "unknownfw"
        "unknownlang" = some (m, used) ∧
      "jest" ∈ used ∧ ∀ k ∈ dkeys (parse_log_jest "✕ stylelint"), k ∈ dkeys m :=
  C4_fallback_amended defaultMissing "✕ stylelint" "unknownfw" "unknownlang"
    "jest" (totalParser parse_log_jest) (parse_log_jest "✕ stylelint")
    (by decide) (by decide) rfl rfl (by decide)

/-- C1: the aggregate-summary strategies applied to a log containing only a
summary line.  For jest, a log on which the checkmark and PASS/FAIL scans
find nothing and whose summary line declares P passed, F failed, K skipped
yields exactly P PASSED, F FAILED and K SKIPPED entries under distinct
synthesized identifiers, with `len(map) = P + F + K`.  For ctest, a log on
which the per-test scan and the FAILED section find nothing and whose
summary declares F failed out of T yields exactly T - F PASSED and F FAILED
entries under distinct synthesized identifiers, with `len(map) = T`; in
particular (witness) the single line
`100% tests passed, 0 tests failed out of 3` gives exactly 3 PASSED and 0
FAILED entries. -/
theorem C1_aggregate_summary :
    (∀ (log : String) (P F K : Nat),
      jestCheckmarkScan (splitLines log) = [] →
      jestPassFailScan (splitLines log) = [] →
      jestFindSummary (splitLines log) = some (P, F, K) →
      parse_log_jest log
        = (synthNames "jest_test_" P (· + 1)).map (fun k => (k, .PASSED)) ++
          (synthNames "jest_failed_test_" F (· + 1)).map (fun k => (k, .FAILED)) ++
          (synthNames "jest_skipped_test_" K (· + 1)).map (fun k => (k, .SKIPPED)) ∧
        countStatus (parse_log_jest log) .PASSED = P ∧
        countStatus (parse_log_jest log) .FAILED = F ∧
        countStatus (parse_log_jest log) .SKIPPED = K ∧
        (parse_log_jest log).length = P + F + K ∧
        (dkeys (parse_log_jest log)).Nodup) ∧
    (∀ (log : String) (pct F T : Nat),
      ctestScan log.data [] = [] →
      ctestFailedSection log.data = none →
      ctestSummarySearch log.data = some (pct, F, T) →
      F ≤ T →
      parse_log_ctest log
        = (synthNames "synthetic_pass_" (T - F) (fun i => i)).map
            (fun k => (k, .PASSED)) ++
          (synthNames "synthetic_fail_" F (fun i => i)).map (fun k => (k, .FAILED)) ∧
        countStatus (parse_log_ctest log) .PASSED = T - F ∧
        countStatus (parse_log_ctest log) .FAILED = F ∧
        (parse_log_ctest log).length = T ∧
        (dkeys (parse_log_ctest log)).Nodup) := by
  constructor
  · intro log P F K h1 h2 h3
    have inj : ∀ i j : Nat, i + 1 = j + 1 → i = j := fun i j h => by omega
    have n1 := synthNames_nodup "jest_test_" P (· + 1) inj
    have n2 := synthNames_nodup "jest_failed_test_" F (· + 1) inj
    have n3 := synthNames_nodup "jest_skipped_test_" K (· + 1) inj
    have d12 := synthNames_disjoint jest_tags_tf P F (· + 1) (· + 1)
    have d13 := synthNames_disjoint jest_tags_ts P K (· + 1) (· + 1)
    have d23 := synthNames_disjoint jest_tags_fs F K (· + 1) (· + 1)
    have hform : parse_log_jest log
        = (synthNames "jest_test_" P (· + 1)).map (fun k => (k, .PASSED)) ++
          (synthNames "jest_failed_test_" F (· + 1)).map (fun k => (k, .FAILED)) ++
          (synthNames "jest_skipped_test_" K (· + 1)).map (fun k => (k, .SKIPPED)) := by
      simp only [parse_log_jest]
      rw [h1, h2]
      simp only [ite_self]
      rw [h3]
      simp only [countStatus_nil, Nat.sub_zero]
      exact insertKeys_three _ _ _ _ _ _ n1 n2 n3 d12 d13 d23
    have ff := family_facts (synthNames "jest_test_" P (· + 1))
      (synthNames "jest_failed_test_" F (· + 1))
      (synthNames "jest_skipped_test_" K (· + 1))
    rw [hform]
    refine ⟨rfl, ?_, ?_, ?_, ?_, ?_⟩
    · rw [ff.1, synthNames_length]
    · rw [ff.2.1, synthNames_length]
    · rw [ff.2.2.1, synthNames_length]
    · rw [ff.2.2.2.1, synthNames_length, synthNames_length, synthNames_length]
    · rw [ff.2.2.2.2]
      exact nodup_three n1 n2 n3 d12 d13 d23
  · intro log pct F T h1 h2 h3 hFT
    have inj : ∀ i j : Nat, i = j → i = j := fun i j h => h
    have n1 := synthNames_nodup "synthetic_pass_" (T - F) (fun i => i) inj
    have n2 := synthNames_nodup "synthetic_fail_" F (fun i => i) inj
    have d12 := synthNames_disjoint ctest_tags_pf (T - F) F (fun i => i) (fun i => i)
    have hform : parse_log_ctest log
        = (synthNames "synthetic_pass_" (T - F) (fun i => i)).map
            (fun k => (k, .PASSED)) ++
          (synthNames "synthetic_fail_" F (fun i => i)).map (fun k => (k, .FAILED)) := by
      simp only [parse_log_ctest]
      rw [h1, h2]
      dsimp only
      rw [h3]
      exact insertKeys_two _ _ _ _ n1 n2 d12
    have ff := family_facts2 (synthNames "synthetic_pass_" (T - F) (fun i => i))
      (synthNames "synthetic_fail_" F (fun i => i))
    rw [hform]
    refine ⟨rfl, ?_, ?_, ?_, ?_⟩
    · rw [ff.1, synthNames_length]
    · rw [ff.2.1, synthNames_length]
    · rw [ff.2.2.2.1, synthNames_length, synthNames_length]
      omega
    · rw [ff.2.2.2.2]
      exact nodup_two n1 n2 d12

/-- C1 witness: both conjuncts applied to concrete one-line logs: the jest
summary `Tests: 3 passed, 1 failed, 2 skipped` and the ctest summary
`100% tests passed, 0 tests failed out of 3` (3 PASSED, 0 FAILED). -/
theorem C1_aggregate_summary_witness :
    (parse_log_jest "Tests: 3 passed, 1 failed, 2 skipped"
        = (synthNames "jest_test_" 3 (· + 1)).map (fun k => (k, .PASSED)) ++
          (synthNames "jest_failed_test_" 1 (· + 1)).map (fun k => (k, .FAILED)) ++
          (synthNames "jest_skipped_test_" 2 (· + 1)).map (fun k => (k, .SKIPPED)) ∧
      countStatus (parse_log_jest "Tests: 3 passed, 1 failed, 2 skipped") .PASSED = 3 ∧
      countStatus (parse_log_jest "Tests: 3 passed, 1 failed, 2 skipped") .FAILED = 1 ∧
      countStatus (parse_log_jest "Tests: 3 passed, 1 failed, 2 skipped") .SKIPPED = 2 ∧
      (parse_log_jest "Tests: 3 passed, 1 failed, 2 skipped").length = 3 + 1 + 2 ∧
      (dkeys (parse_log_jest "Tests: 3 passed, 1 failed, 2 skipped")).Nodup) ∧
    (parse_log_ctest "100% tests passed, 0 tests failed out of 3"
        = (synthNames "synthetic_pass_" (3 - 0) (fun i => i)).map
            (fun k => (k, .PASSED)) ++
          (synthNames "synthetic_fail_" 0 (fun i => i)).map (fun k => (k, .FAILED)) ∧
      countStatus (parse_log_ctest "100% tests passed, 0 tests failed out of 3")
        .PASSED = 3 - 0 ∧
      countStatus (parse_log_ctest "100% tests passed, 0 tests failed out of 3")
        .FAILED = 0 ∧
      (parse_log_ctest "100% tests passed, 0 tests failed out of 3").length = 3 ∧
      (dkeys (parse_log_ctest "100% tests passed, 0 tests failed out of 3")).Nodup) :=
  ⟨C1_aggregate_summary.1 "Tests: 3 passed, 1 failed, 2 skipped" 3 1 2
      (by decide) (by decide) (by decide),
   C1_aggregate_summary.2 "100% tests passed, 0 tests failed out of 3" 100 0 3
      (by decide) (by decide) (by decide) (by decide)⟩

/-- C9: scenario 1 — on the log consisting of exactly the lines `✓ testA`,
`✕ testB`, `○ testC`, with the framework hint selecting the checkmark-style
jest strategy, classification yields exactly the three-entry map
{testA ↦ PASSED, testB ↦ FAILED, testC ↦ SKIPPED} and exactly one strategy
contributes — for every instantiation of the parser modules missing from
this snapshot (none of them is ever invoked). -/
theorem C9_scenario_checkmarks (mp : MissingParsers) :
    parse_test_output mp "✓ testA\n✕ testB\n○ testC" "jest" "" =
      some ([("testA", .PASSED), ("testB", .FAILED), ("testC", .SKIPPED)],
        ["jest"]) := by
  have e : alookup (PARSERS mp) "jest" = some (totalParser parse_log_jest) := rfl
  have p : totalParser parse_log_jest "✓ testA\n✕ testB\n○ testC"
      = some [("testA", .PASSED), ("testB", .FAILED), ("testC", .SKIPPED)] := by
    decide
  have s := tryStep_success (PARSERS mp) "✓ testA\n✕ testB\n○ testC" ([], []) e p
    (by decide)
  have hfold : tryFold (PARSERS mp) "✓ testA\n✕ testB\n○ testC" ["jest"] ([], [])
      = ([("testA", .PASSED), ("testB", .FAILED), ("testC", .SKIPPED)],
        [] ++ ["jest"]) := by
    unfold tryFold
    rw [List.foldl_cons, s]
    rfl
  have htry : try_parsers (PARSERS mp) "✓ testA\n✕ testB\n○ testC" ["jest"]
      = some ([("testA", .PASSED), ("testB", .FAILED), ("testC", .SKIPPED)],
        ["jest"]) := by
    unfold try_parsers
    rw [hfold]
    rfl
  have hsel : selectCandidates "jest" "" = ["jest"] := by decide
  unfold parse_test_output
  rw [hsel]
  simp [htry]

/-- C9 witness: the scenario evaluated at the default instantiation of the
missing parser modules. -/
theorem C9_scenario_checkmarks_witness :
    parse_test_output defaultMissing "✓ testA\n✕ testB\n○ testC" "jest" "" =
      some ([("testA", .PASSED), ("testB", .FAILED), ("testC", .SKIPPED)],
        ["jest"]) :=
  C9_scenario_checkmarks defaultMissing

/-- C6: every embedded strategy, registered as a parser, never raises — in
the embedding, `totalParser` never returns the `none` that models a raised
exception — and on inputs in which it recognises no patterns (the empty
string, binary garbage, a truncated summary line) it returns the empty map
rather than an error. -/
theorem C6_strategies_never_raise :
    ∀ S ∈ embeddedStrategies,
      (∀ L : String, totalParser S.2 L ≠ none) ∧
      S.2 "" = [] ∧
      S.2 "\x00\x01\x02 binary ÿþ garbage ~~" = [] ∧
      S.2 "Tests: 3 pass" = [] := by
  intro S hS
  refine ⟨fun L => by simp [totalParser], ?_⟩
  fin_cases hS <;> exact ⟨by decide, by decide, by decide⟩

/-- C6 witness: the statement applied to the jest strategy and to the
catch2 strategy, each at the three concrete adversarial inputs. -/
theorem C6_strategies_never_raise_witness :
    (totalParser parse_log_jest "✓ x" ≠ none) ∧
    parse_log_jest "" = [] ∧
    parse_log_jest "\x00\x01\x02 binary ÿþ garbage ~~" = [] ∧
    parse_log_jest "Tests: 3 pass" = [] ∧
    parse_log_catch2 "" = [] ∧
    parse_log_catch2 "\x00\x01\x02 binary ÿþ garbage ~~" = [] := by
  have hj := C6_strategies_never_raise ("jest", parse_log_jest)
    (List.mem_cons_self _ _)
  have hc := C6_strategies_never_raise ("catch2", parse_log_catch2)
    (by unfold embeddedStrategies; simp)
  exact ⟨hj.1 "✓ x", hj.2.1, hj.2.2.1, hj.2.2.2, hc.2.1, hc.2.2.1⟩

/-- C7 counterexample: the claim demands exactly one entry for every log,
but the stylelint gate returns an empty map on the empty log, and the
cspell gate returns two entries on a log containing both a `test:build`
marker and a CSpell result line. -/
theorem C7_binary_gate_counterexample :
    parse_log_stylelint "" = [] ∧ (parse_log_stylelint "").length ≠ 1 ∧
    parse_log_cspell "test:build\nCSpell: Files checked: 1, Issues found: 0"
      = [("spec_build", .PASSED), ("cspell_spelling", .PASSED)] ∧
    (parse_log_cspell
      "test:build\nCSpell: Files checked: 1, Issues found: 0").length ≠ 1 := by
  decide

theorem C7eslintChar (L : String) :
    (∀ k, k ∈ dkeys (parse_log_eslint L) → k = "eslint_check") ∧
    (∀ v, ("eslint_check", v) ∈ parse_log_eslint L →
      (v = .FAILED ↔ ∃ n, eslintErrorSearch L.data = some n ∧ n > 0)) ∧
    ((eslintErrorSearch L.data = none ∧ strContains L "npm info ok" = false ∧
      strContains L "exit 0" = false) → parse_log_eslint L = []) := by
  unfold parse_log_eslint
  cases hs : eslintErrorSearch L.data with
  | some n =>
    dsimp only
    by_cases hn : n > 0
    · rw [if_pos hn]
      refine ⟨?_, ?_, ?_⟩
      · intro k hk
        simpa [dkeys] using hk
      · intro v hv
        simp at hv
        subst hv
        exact ⟨fun _ => ⟨n, rfl, hn⟩, fun _ => rfl⟩
      · rintro ⟨habs, -, -⟩
        cases habs
    · rw [if_neg hn]
      refine ⟨?_, ?_, ?_⟩
      · intro k hk
        simpa [dkeys] using hk
      · intro v hv
        simp at hv
        subst hv
        constructor
        · intro hF
          exact absurd hF (by decide)
        · rintro ⟨m, hm, hmpos⟩
          injection hm with hm
          subst hm
          exact absurd hmpos hn
      · rintro ⟨habs, -, -⟩
        cases habs
  | none =>
    dsimp only
    by_cases hc : (strContains L "npm info ok" || strContains L "exit 0") = true
    · rw [if_pos hc]
      refine ⟨?_, ?_, ?_⟩
      · intro k hk
        simpa [dkeys] using hk
      · intro v hv
        simp at hv
        subst hv
        constructor
        · intro hF
          exact absurd hF (by decide)
        · rintro ⟨m, hm, -⟩
          cases hm
      · rintro ⟨-, hnpm, hexit⟩
        rw [hnpm, hexit] at hc
        simp at hc
    · rw [if_neg hc]
      refine ⟨?_, ?_, ?_⟩
      · intro k hk
        simp [dkeys] at hk
      · intro v hv
        simp at hv
      · intro _
        rfl

theorem C7stylelintChar (L : String) :
    (∀ k, k ∈ dkeys (parse_log_stylelint L) → k = "stylelint") ∧
    (∀ v, ("stylelint", v) ∈ parse_log_stylelint L →
      (v = .FAILED ↔ (strContains (pyLower L) "error" = true ∨
        strContains (pyLower L) "failed" = true))) ∧
    (strContains (pyLower L) "stylelint" = false → parse_log_stylelint L = []) := by
  unfold parse_log_stylelint
  by_cases h1 : strContains (pyLower L) "stylelint" = true
  · rw [if_pos h1]
    by_cases h2 : (strContains (pyLower L) "error" ||
        strContains (pyLower L) "failed") = true
    · rw [if_pos h2]
      refine ⟨?_, ?_, ?_⟩
      · intro k hk
        simpa [dkeys] using hk
      · intro v hv
        simp at hv
        subst hv
        constructor
        · intro _
          rcases Bool.or_eq_true_iff.mp h2 with h | h
          · exact Or.inl h
          · exact Or.inr h
        · intro _
          rfl
      · intro habs
        rw [habs] at h1
        cases h1
    · rw [if_neg h2]
      refine ⟨?_, ?_, ?_⟩
      · intro k hk
        simpa [dkeys] using hk
      · intro v hv
        simp at hv
        subst hv
        constructor
        · intro hF
          exact absurd hF (by decide)
        · intro hor
          exfalso
          apply h2
          rcases hor with h | h
          · exact Bool.or_eq_true_iff.mpr (Or.inl h)
          · exact Bool.or_eq_true_iff.mpr (Or.inr h)
      · intro habs
        rw [habs] at h1
        cases h1
  · rw [if_neg h1]
    refine ⟨?_, ?_, ?_⟩
    · intro k hk
      simp [dkeys] at hk
    · intro v hv
      simp at hv
    · intro _
      rfl
theorem bool_eq_false {b : Bool} (h : ¬ b = true) : b = false := by
  cases b
  · rfl
  · exact absurd rfl h

theorem C7cspellChar (L : String) :
    (∀ k, k ∈ dkeys (parse_log_cspell L) →
      k = "prettier_format" ∨ k = "spec_build" ∨ k = "cspell_spelling") ∧
    (∀ v, ("cspell_spelling", v) ∈ parse_log_cspell L →
      (v = .FAILED ↔ ∃ n, cspellSearch L.data = some n ∧ n ≠ 0)) ∧
    (∀ v, ("spec_build", v) ∈ parse_log_cspell L → v = .PASSED) ∧
    (∀ v, ("prettier_format", v) ∈ parse_log_cspell L →
      (v = .FAILED ↔
        strContains L "All matched files use Prettier code style!" = false)) := by
  by_cases h1 : strContains L "All matched files use Prettier code style!" = true
  · by_cases h3 : strContains L "test:build" = true
    · cases hs : cspellSearch L.data with
      | none =>
        have hmap : parse_log_cspell L =
            [("prettier_format", .PASSED), ("spec_build", .PASSED)] := by
          simp only [parse_log_cspell]
          rw [hs, if_pos h1, if_pos h3]
          rfl
        rw [hmap]
        refine ⟨?_, ?_, ?_, ?_⟩
        · intro k hk
          simp [dkeys] at hk
          tauto
        · intro v hv
          simp at hv
        · intro v hv
          simp at hv
          exact hv
        · intro v hv
          simp at hv
          subst hv
          simp [h1]
      | some n =>
        have hmap : parse_log_cspell L =
            [("prettier_format", .PASSED), ("spec_build", .PASSED),
             ("cspell_spelling", if n = 0 then .PASSED else .FAILED)] := by
          simp only [parse_log_cspell]
          rw [hs, if_pos h1, if_pos h3]
          rfl
        rw [hmap]
        refine ⟨?_, ?_, ?_, ?_⟩
        · intro k hk
          simp [dkeys] at hk
          tauto
        · intro v hv
          simp at hv
          subst hv
          by_cases hz : n = 0 <;> simp [hz, hs]
        · intro v hv
          simp at hv
          exact hv
        · intro v hv
          simp at hv
          subst hv
          simp [h1]
    · have h3' := bool_eq_false h3
      cases hs : cspellSearch L.data with
      | none =>
        have hmap : parse_log_cspell L = [("prettier_format", .PASSED)] := by
          simp only [parse_log_cspell]
          rw [hs, if_pos h1, if_neg h3]
          rfl
        rw [hmap]
        refine ⟨?_, ?_, ?_, ?_⟩
        · intro k hk
          simp [dkeys] at hk
          tauto
        · intro v hv
          simp at hv
        · intro v hv
          simp at hv
        · intro v hv
          simp at hv
          subst hv
          simp [h1]
      | some n =>
        have hmap : parse_log_cspell L =
            [("prettier_format", .PASSED),
             ("cspell_spelling", if n = 0 then .PASSED else .FAILED)] := by
          simp only [parse_log_cspell]
          rw [hs, if_pos h1, if_neg h3]
          rfl
        rw [hmap]
        refine ⟨?_, ?_, ?_, ?_⟩
        · intro k hk
          simp [dkeys] at hk
          tauto
        · intro v hv
          simp at hv
          subst hv
          by_cases hz : n = 0 <;> simp [hz, hs]
        · intro v hv
          simp at hv
        · intro v hv
          simp at hv
          subst hv
          simp [h1]
  · have h1' := bool_eq_false h1
    by_cases h2 : (strContains L "Checking formatting..." &&
        strContains L "npm run suggest:format") = true
    · by_cases h3 : strContains L "test:build" = true
      · cases hs : cspellSearch L.data with
        | none =>
          have hmap : parse_log_cspell L =
              [("prettier_format", .FAILED), ("spec_build", .PASSED)] := by
            simp only [parse_log_cspell]
            rw [hs, if_neg h1, if_pos h2, if_pos h3]
            rfl
          rw [hmap]
          refine ⟨?_, ?_, ?_, ?_⟩
          · intro k hk
            simp [dkeys] at hk
            tauto
          · intro v hv
            simp at hv
          · intro v hv
            simp at hv
            exact hv
          · intro v hv
            simp at hv
            subst hv
            simp [h1']
        | some n =>
          have hmap : parse_log_cspell L =
              [("prettier_format", .FAILED), ("spec_build", .PASSED),
               ("cspell_spelling", if n = 0 then .PASSED else .FAILED)] := by
            simp only [parse_log_cspell]
            rw [hs, if_neg h1, if_pos h2, if_pos h3]
            rfl
          rw [hmap]
          refine ⟨?_, ?_, ?_, ?_⟩
          · intro k hk
            simp [dkeys] at hk
            tauto
          · intro v hv
            simp at hv
            subst hv
            by_cases hz : n = 0 <;> simp [hz, hs]
          · intro v hv
            simp at hv
            exact hv
          · intro v hv
            simp at hv
            subst hv
            simp [h1']
      · have h3' := bool_eq_false h3
        cases hs : cspellSearch L.data with
        | none =>
          have hmap : parse_log_cspell L = [("prettier_format", .FAILED)] := by
            simp only [parse_log_cspell]
            rw [hs, if_neg h1, if_pos h2, if_neg h3]
            rfl
          rw [hmap]
          refine ⟨?_, ?_, ?_, ?_⟩
          · intro k hk
            simp [dkeys] at hk
            tauto
          · intro v hv
            simp at hv
          · intro v hv
            simp at hv
          · intro v hv
            simp at hv
            subst hv
            simp [h1']
        | some n =>
          have hmap : parse_log_cspell L =
              [("prettier_format", .FAILED),
               ("cspell_spelling", if n = 0 then .PASSED else .FAILED)] := by
            simp only [parse_log_cspell]
            rw [hs, if_neg h1, if_pos h2, if_neg h3]
            rfl
          rw [hmap]
          refine ⟨?_, ?_, ?_, ?_⟩
          · intro k hk
            simp [dkeys] at hk
            tauto
          · intro v hv
            simp at hv
            subst hv
            by_cases hz : n = 0 <;> simp [hz, hs]
          · intro v hv
            simp at hv
          · intro v hv
            simp at hv
            subst hv
            simp [h1']
    · have h2' := bool_eq_false h2
      by_cases h3 : strContains L "test:build" = true
      · cases hs : cspellSearch L.data with
        | none =>
          have hmap : parse_log_cspell L = [("spec_build", .PASSED)] := by
            simp only [parse_log_cspell]
            rw [hs, if_neg h1, if_neg h2, if_pos h3]
            rfl
          rw [hmap]
          refine ⟨?_, ?_, ?_, ?_⟩
          · intro k hk
            simp [dkeys] at hk
            tauto
          · intro v hv
            simp at hv
          · intro v hv
            simp at hv
            exact hv
          · intro v hv
            simp at hv
        | some n =>
          have hmap : parse_log_cspell L =
              [("spec_build", .PASSED),
               ("cspell_spelling", if n = 0 then .PASSED else .FAILED)] := by
            simp only [parse_log_cspell]
            rw [hs, if_neg h1, if_neg h2, if_pos h3]
            rfl
          rw [hmap]
          refine ⟨?_, ?_, ?_, ?_⟩
          · intro k hk
            simp [dkeys] at hk
            tauto
          · intro v hv
            simp at hv
            subst hv
            by_cases hz : n = 0 <;> simp [hz, hs]
          · intro v hv
            simp at hv
            exact hv
          · intro v hv
            simp at hv
      · have h3' := bool_eq_false h3
        cases hs : cspellSearch L.data with
        | none =>
          have hmap : parse_log_cspell L = [] := by
            simp only [parse_log_cspell]
            rw [hs, if_neg h1, if_neg h2, if_neg h3]
          rw [hmap]
          refine ⟨?_, ?_, ?_, ?_⟩
          · intro k hk
            simp [dkeys] at hk
          · intro v hv
            simp at hv
          · intro v hv
            simp at hv
          · intro v hv
            simp at hv
        | some n =>
          have hmap : parse_log_cspell L =
              [("cspell_spelling", if n = 0 then .PASSED else .FAILED)] := by
            simp only [parse_log_cspell]
            rw [hs, if_neg h1, if_neg h2, if_neg h3]
            rfl
          rw [hmap]
          refine ⟨?_, ?_, ?_, ?_⟩
          · intro k hk
            simp [dkeys] at hk
            tauto
          · intro v hv
            simp at hv
            subst hv
            by_cases hz : n = 0 <;> simp [hz, hs]
          · intro v hv
            simp at hv
          · intro v hv
            simp at hv

/-- C7 (amended): each binary-gate strategy produces entries only under its
fixed tool keys, FAILED exactly when the corresponding failure signal is
present in the log; however, the eslint and stylelint gates may produce no
entry at all (when their tool markers are absent), and the cspell gate may
produce up to three fixed-key entries, so "exactly one entry for every log"
does not hold. -/
theorem C7_binary_gate_amended :
    (∀ L : String,
      (∀ k, k ∈ dkeys (parse_log_eslint L) → k = "eslint_check") ∧
      (∀ v, ("eslint_check", v) ∈ parse_log_eslint L →
        (v = .FAILED ↔ ∃ n, eslintErrorSearch L.data = some n ∧ n > 0)) ∧
      ((eslintErrorSearch L.data = none ∧ strContains L "npm info ok" = false ∧
        strContains L "exit 0" = false) → parse_log_eslint L = [])) ∧
    (∀ L : String,
      (∀ k, k ∈ dkeys (parse_log_stylelint L) → k = "stylelint") ∧
      (∀ v, ("stylelint", v) ∈ parse_log_stylelint L →
        (v = .FAILED ↔ (strContains (pyLower L) "error" = true ∨
          strContains (pyLower L) "failed" = true))) ∧
      (strContains (pyLower L) "stylelint" = false →
        parse_log_stylelint L = [])) ∧
    (∀ L : String,
      (∀ k, k ∈ dkeys (parse_log_cspell L) →
        k = "prettier_format" ∨ k = "spec_build" ∨ k = "cspell_spelling") ∧
      (∀ v, ("cspell_spelling", v) ∈ parse_log_cspell L →
        (v = .FAILED ↔ ∃ n, cspellSearch L.data = some n ∧ n ≠ 0)) ∧
      (∀ v, ("spec_build", v) ∈ parse_log_cspell L → v = .PASSED) ∧
      (∀ v, ("prettier_format", v) ∈ parse_log_cspell L →
        (v = .FAILED ↔
          strContains L "All matched files use Prettier code style!" = false))) :=
  ⟨C7eslintChar, C7stylelintChar, C7cspellChar⟩

/-- C7 amended, evaluated: the empty log yields empty eslint and stylelint
maps, a one-error eslint log is classified FAILED, and a clean CSpell summary
is classified PASSED. -/
theorem C7_binary_gate_amended_witness :
    parse_log_eslint "" = [] ∧
    ((TestStatus.FAILED = .FAILED) ↔ ∃ n,
      eslintErrorSearch ("✖ 2 problems (1 error, 1 warning)" : String).data
        = some n ∧ n > 0) ∧
    parse_log_stylelint "" = [] ∧
    ((TestStatus.PASSED = .FAILED) ↔ ∃ n,
      cspellSearch
        ("test:build\nCSpell: Files checked: 14, Issues found: 0 in 0 files"
          : String).data = some n ∧ n ≠ 0) :=
  ⟨(C7_binary_gate_amended.1 "").2.2 ⟨by decide, by decide, by decide⟩,
   (C7_binary_gate_amended.1 "✖ 2 problems (1 error, 1 warning)").2.1
     .FAILED (by decide),
   (C7_binary_gate_amended.2.1 "").2.2 (by decide),
   (C7_binary_gate_amended.2.2
     "test:build\nCSpell: Files checked: 14, Issues found: 0 in 0 files").2.1
     .PASSED (by decide)⟩

theorem gtestLineStep_char (st : ClassMap × Option String) (line : List Char) :
    (gtestLineStep st line).1 =
      (match gtestResultDecl line with
       | some p => dinsert st.1 p.1 p.2
       | none => st.1) := by
  cases h1 : gtestRunLine (stripChars line) with
  | some n => simp [gtestLineStep, gtestResultDecl, h1]
  | none =>
    cases h2 : gtestOkLine (stripChars line) with
    | some n => simp [gtestLineStep, gtestResultDecl, h1, h2]
    | none =>
      cases h3 : gtestFailedLine (stripChars line) with
      | some n =>
        cases hd : allDigits n <;>
          simp [gtestLineStep, gtestResultDecl, h1, h2, h3, hd]
      | none =>
        cases h4 : gtestSkipLine (stripChars line) <;>
          simp [gtestLineStep, gtestResultDecl, h1, h2, h3, h4]

theorem gtestMapFold_cons (l : List Char) (rest : List (List Char))
    (m : ClassMap) :
    gtestMapFold (l :: rest) m =
      gtestMapFold rest
        (match gtestResultDecl l with
         | some p => dinsert m p.1 p.2
         | none => m) := rfl

theorem gtest_fold_fst (lines : List (List Char))
    (st : ClassMap × Option String) :
    (lines.foldl gtestLineStep st).1 = gtestMapFold lines st.1 := by
  induction lines generalizing st with
  | nil => rfl
  | cons l rest ih =>
    rw [List.foldl_cons, ih, gtestLineStep_char, gtestMapFold_cons]

theorem gtestResultNames_cons (l : List Char) (rest : List (List Char)) :
    gtestResultNames (l :: rest) =
      (match gtestResultDecl l with
       | some p => p.1 :: gtestResultNames rest
       | none => gtestResultNames rest) := by
  unfold gtestResultNames
  rw [List.filterMap_cons]
  cases gtestResultDecl l <;> rfl

theorem mem_dkeys_gtestMapFold {lines : List (List Char)} {m : ClassMap}
    {k : String} (h : k ∈ dkeys (gtestMapFold lines m)) :
    k ∈ dkeys m ∨ k ∈ gtestResultNames lines := by
  induction lines generalizing m with
  | nil => exact Or.inl h
  | cons l rest ih =>
    rw [gtestMapFold_cons] at h
    cases hd : gtestResultDecl l with
    | some p =>
      rw [hd] at h
      dsimp only at h
      rcases ih h with h1 | h2
      · rcases mem_dkeys_dinsert.1 h1 with h1a | h1b
        · exact Or.inl h1a
        · refine Or.inr ?_
          rw [gtestResultNames_cons, hd, h1b]
          exact List.mem_cons_self _ _
      · refine Or.inr ?_
        rw [gtestResultNames_cons, hd]
        exact List.mem_cons_of_mem _ h2
    | none =>
      rw [hd] at h
      dsimp only at h
      rcases ih h with h1 | h2
      · exact Or.inl h1
      · refine Or.inr ?_
        rw [gtestResultNames_cons, hd]
        exact h2

theorem mem_dkeys_gtestMapFold_mono {lines : List (List Char)} {m : ClassMap}
    {k : String} (h : k ∈ dkeys m) : k ∈ dkeys (gtestMapFold lines m) := by
  induction lines generalizing m with
  | nil => exact h
  | cons l rest ih =>
    rw [gtestMapFold_cons]
    cases hd : gtestResultDecl l with
    | some p =>
      dsimp only
      exact ih (mem_dkeys_dinsert.2 (Or.inl h))
    | none =>
      dsimp only
      exact ih h

theorem mem_gtestResultNames_dkeys {lines : List (List Char)} {m : ClassMap}
    {k : String} (h : k ∈ gtestResultNames lines) :
    k ∈ dkeys (gtestMapFold lines m) := by
  induction lines generalizing m with
  | nil => simp [gtestResultNames] at h
  | cons l rest ih =>
    rw [gtestResultNames_cons] at h
    rw [gtestMapFold_cons]
    cases hd : gtestResultDecl l with
    | some p =>
      rw [hd] at h
      dsimp only at h ⊢
      rcases List.mem_cons.mp h with h1 | h2
      · subst h1
        exact mem_dkeys_gtestMapFold_mono (mem_dkeys_dinsert.2 (Or.inr rfl))
      · exact ih h2
    | none =>
      rw [hd] at h
      dsimp only at h ⊢
      exact ih h

theorem dlookup_gtestMapFold (lines : List (List Char)) (m : ClassMap)
    (name : String) :
    dlookup (gtestMapFold lines m) name =
      (match gtestLastDecl lines name with
       | some s => some s
       | none => dlookup m name) := by
  induction lines generalizing m with
  | nil => rfl
  | cons l rest ih =>
    rw [gtestMapFold_cons]
    cases hd : gtestResultDecl l with
    | some p =>
      dsimp only
      rw [ih]
      cases hlast : gtestLastDecl rest name with
      | some s =>
        rw [show gtestLastDecl (l :: rest) name = some s by
          rw [gtestLastDecl, hlast]]
      | none =>
        rw [show gtestLastDecl (l :: rest) name =
            (if p.1 = name then some p.2 else none) by
          rw [gtestLastDecl, hlast, hd]]
        by_cases hp : p.1 = name
        · subst hp
          rw [if_pos rfl]
          exact dlookup_dinsert_self m p.1 p.2
        · rw [if_neg hp]
          exact dlookup_dinsert_ne p.2 (fun he => hp he.symm)
    | none =>
      dsimp only
      rw [ih]
      rw [show gtestLastDecl (l :: rest) name =
          (match gtestLastDecl rest name with
           | some s => some s
           | none => none) by
        rw [gtestLastDecl, hd]]
      cases gtestLastDecl rest name <;> rfl

theorem mem_dkeys_insertKeys {m : ClassMap} {ks : List String}
    {st : TestStatus} {k : String} (h : k ∈ dkeys (insertKeys m ks st)) :
    k ∈ dkeys m ∨ k ∈ ks := by
  induction ks generalizing m with
  | nil => exact Or.inl h
  | cons a rest ih =>
    rw [show insertKeys m (a :: rest) st = insertKeys (dinsert m a st) rest st
      from rfl] at h
    rcases ih h with h1 | h2
    · rcases mem_dkeys_dinsert.1 h1 with h1a | h1b
      · exact Or.inl h1a
      · exact Or.inr (h1b ▸ List.mem_cons_self _ _)
    · exact Or.inr (List.mem_cons_of_mem _ h2)

theorem mem_synthNames {tag : String} {n : Nat} {f : Nat → Nat} {k : String}
    (h : k ∈ synthNames tag n f) : ∃ i, i < n ∧ k = tag ++ Nat.repr (f i) := by
  simp [synthNames] at h
  rcases h with ⟨i, hi, hk⟩
  exact ⟨i, hi, hk.symm⟩

theorem parse_log_gtest_fold (log : String)
    (h : (gtestMapFold (splitLines log) []).isEmpty = false) :
    parse_log_gtest log = gtestMapFold (splitLines log) [] := by
  simp only [parse_log_gtest]
  rw [gtest_fold_fst]
  dsimp only
  rw [h]
  rfl

theorem parse_log_gtest_summary (log : String)
    (h : (gtestMapFold (splitLines log) []).isEmpty = true) :
    parse_log_gtest log =
      (match searchWith gtestSummaryTestsHere log.data with
       | some _ =>
         insertKeys (insertKeys []
           (synthNames "test_passed_"
             ((searchWith (fun cs => gtestSummaryCountHere cs ("PASSED".data))
                log.data).getD 0) (fun i => i + 1)) .PASSED)
           (synthNames "test_failed_"
             ((searchWith (fun cs => gtestSummaryCountHere cs ("FAILED".data))
                log.data).getD 0) (fun i => i + 1)) .FAILED
       | none => []) := by
  simp only [parse_log_gtest]
  rw [gtest_fold_fst]
  dsimp only
  rw [h]
  rfl

/-- C8 counterexample: in the log
`[ RUN      ] test_passed_1 / [==========] 5 tests from suite /
[  PASSED  ]5 tests` the name `test_passed_1` appears only in a start
marker line — no result line matches, so the per-line map is empty — yet
the summary fallback synthesizes that very key, so it does appear in the
returned map; and in `[       OK ] A.B / [  FAILED  ] A.B` the name `A.B`
appears in an OK result line but is mapped to FAILED, the status of the
later result line, not the status "that result line" declares. -/
theorem C8_gtest_counterexample :
    (gtestRunLine (stripChars ("[ RUN      ] test_passed_1" : String).data)
        = some "test_passed_1" ∧
      gtestResultNames (splitLines
        "[ RUN      ] test_passed_1\n[==========] 5 tests from suite\n[  PASSED  ]5 tests")
        = [] ∧
      dlookup (parse_log_gtest
        "[ RUN      ] test_passed_1\n[==========] 5 tests from suite\n[  PASSED  ]5 tests")
        "test_passed_1" = some .PASSED) ∧
    (gtestResultDecl ("[       OK ] A.B" : String).data
        = some ("A.B", .PASSED) ∧
      parse_log_gtest "[       OK ] A.B\n[  FAILED  ] A.B"
        = [("A.B", .FAILED)]) := by
  decide

/-- C8 (amended): every key of `parse_log_gtest` comes from a per-test
result line or is a synthesized summary placeholder `test_passed_{i+1}` or
`test_failed_{i+1}` (so a RUN-only name never enters the map as such, but
may coincide with a synthesized placeholder); and every name declared by a
result line is mapped to the status of the last result line bearing it. -/
theorem C8_gtest_amended (log : String) :
    (∀ k, k ∈ dkeys (parse_log_gtest log) →
      k ∈ gtestResultNames (splitLines log) ∨
      (∃ i, k = "test_passed_" ++ Nat.repr (i + 1)) ∨
      (∃ i, k = "test_failed_" ++ Nat.repr (i + 1))) ∧
    (∀ name, name ∈ gtestResultNames (splitLines log) →
      dlookup (parse_log_gtest log) name
        = gtestLastDecl (splitLines log) name) := by
  constructor
  · intro k hk
    by_cases hm : (gtestMapFold (splitLines log) []).isEmpty = true
    · rw [parse_log_gtest_summary log hm] at hk
      cases hsum : searchWith gtestSummaryTestsHere log.data with
      | none =>
        rw [hsum] at hk
        dsimp only at hk
        simp [dkeys] at hk
      | some t =>
        rw [hsum] at hk
        dsimp only at hk
        rcases mem_dkeys_insertKeys hk with hk1 | hk2
        · rcases mem_dkeys_insertKeys hk1 with hk0 | hkp
          · simp [dkeys] at hk0
          · rcases mem_synthNames hkp with ⟨i, -, hi⟩
            exact Or.inr (Or.inl ⟨i, hi⟩)
        · rcases mem_synthNames hk2 with ⟨i, -, hi⟩
          exact Or.inr (Or.inr ⟨i, hi⟩)
    · rw [parse_log_gtest_fold log (bool_eq_false hm)] at hk
      rcases mem_dkeys_gtestMapFold hk with h0 | hn
      · simp [dkeys] at h0
      · exact Or.inl hn
  · intro name hname
    have hmem : name ∈ dkeys (gtestMapFold (splitLines log) []) :=
      mem_gtestResultNames_dkeys hname
    have hm : (gtestMapFold (splitLines log) []).isEmpty = false :=
      bool_eq_false (not_isEmpty_of_mem_dkeys hmem)
    rw [parse_log_gtest_fold log hm, dlookup_gtestMapFold]
    cases gtestLastDecl (splitLines log) name <;> rfl

/-- C8 amended, evaluated on the log `[       OK ] A.B / [  FAILED  ] A.B`:
the key `A.B` comes from a result line, and its looked-up status agrees
with the declaration of the last result line bearing it. -/
theorem C8_gtest_amended_witness :
    ("A.B" ∈ gtestResultNames (splitLines "[       OK ] A.B\n[  FAILED  ] A.B") ∨
      (∃ i, "A.B" = "test_passed_" ++ Nat.repr (i + 1)) ∨
      (∃ i, "A.B" = "test_failed_" ++ Nat.repr (i + 1))) ∧
    dlookup (parse_log_gtest "[       OK ] A.B\n[  FAILED  ] A.B") "A.B"
      = gtestLastDecl (splitLines "[       OK ] A.B\n[  FAILED  ] A.B") "A.B" :=
  ⟨(C8_gtest_amended "[       OK ] A.B\n[  FAILED  ] A.B").1 "A.B" (by decide),
   (C8_gtest_amended "[       OK ] A.B\n[  FAILED  ] A.B").2 "A.B" (by decide)⟩

end VerifyTesting
